import Mathlib

/-!
Verification of the directive-resolution pipeline in `Backend/app/gemini_analyzer.py`.

The Python code is shallowly embedded over `Str := List Char`.  Python `str`
values become `List Char`, Python `dict`/JSON values become the inductive `J`
(JSON numbers are modelled as integers; float literals are outside the model),
fallible attribute access on the oracle response object becomes `PyAttr`, and
the oracle itself becomes a function from attempt index and schema mode to an
exception-or-response value, so that theorems quantify over every collaborator
behaviour.  All definitions are executable and follow the Python source
line by line; names mirror the source where Lean's lexer allows it.
-/

/-! ## Characters and basic string utilities -/

abbrev Str := List Char

def lit (s : String) : Str := s.data

/-- The backtick character (code 96). -/
def bq : Char := Char.ofNat 96

/-- The double-quote character (code 34). -/
def qm : Char := Char.ofNat 34

/-- The backslash character (code 92). -/
def bsl : Char := Char.ofNat 92

/-- The opening-brace character (code 123). -/
def lbr : Char := Char.ofNat 123

/-- The closing-brace character (code 125). -/
def rbr : Char := Char.ofNat 125

/-- The apostrophe character (code 39). -/
def apo : Char := Char.ofNat 39

/-- Whitespace for Python `str.strip` (ASCII fragment). -/
def pyWs (c : Char) : Bool :=
  c = ' ' || c = '\t' || c = '\n' || c = '\r' || c = Char.ofNat 11 || c = Char.ofNat 12

/-- Whitespace class of Python's regex `\s` (ASCII fragment, same set). -/
def reWs (c : Char) : Bool := pyWs c

/-- Whitespace accepted between JSON tokens by `json.loads`. -/
def jsonWs (c : Char) : Bool := c = ' ' || c = '\t' || c = '\n' || c = '\r'

def trimLeft (s : Str) : Str := s.dropWhile pyWs

def trimRight (s : Str) : Str := (s.reverse.dropWhile pyWs).reverse

/-- Python `str.strip()`. -/
def pystrip (s : Str) : Str := trimRight (trimLeft s)

/-- ASCII lower-casing, Python `str.lower` on the ASCII fragment. -/
def lowerChar (c : Char) : Char :=
  if 'A' ≤ c ∧ c ≤ 'Z' then Char.ofNat (c.toNat + 32) else c

/-- ASCII upper-casing, Python `str.upper` on the ASCII fragment. -/
def upperChar (c : Char) : Char :=
  if 'a' ≤ c ∧ c ≤ 'z' then Char.ofNat (c.toNat - 32) else c

def lowerStr (s : Str) : Str := s.map lowerChar

def upperStr (s : Str) : Str := s.map upperChar

/-- Python `s.startswith(pat)`. -/
def startsWithS (s pat : Str) : Bool := List.isPrefixOf pat s

/-- Python `s.endswith(pat)`. -/
def endsWithS (s pat : Str) : Bool := List.isSuffixOf pat s

/-- Python `s.find(pat)` as an `Option` (index of the first occurrence). -/
def strFind (pat : Str) : Str → Option Nat
  | [] => if List.isPrefixOf pat ([] : Str) then some 0 else none
  | c :: t =>
    if List.isPrefixOf pat (c :: t) then some 0
    else (strFind pat t).map (· + 1)

/-- Python `s.rfind(pat)` as an `Option` (index of the last occurrence). -/
def strRFind (pat : Str) : Str → Option Nat
  | [] => if List.isPrefixOf pat ([] : Str) then some 0 else none
  | c :: t =>
    match strRFind pat t with
    | some i => some (i + 1)
    | none => if List.isPrefixOf pat (c :: t) then some 0 else none

/-- Python `pat in s` (substring containment). -/
def containsSub (s pat : Str) : Bool := (strFind pat s).isSome

def isDigitC (c : Char) : Bool := '0' ≤ c ∧ c ≤ '9'

/-- Character class `[A-Za-z_]` of the loose-recovery regexes. -/
def nameChar (c : Char) : Bool :=
  ('A' ≤ c ∧ c ≤ 'Z') || ('a' ≤ c ∧ c ≤ 'z') || c = '_'

def natOfDigits (ds : Str) : Nat :=
  ds.foldl (fun a c => a * 10 + (c.toNat - 48)) 0

/-- Decimal digits of a natural number (fuel keeps the recursion
structural; `n + 1` always exceeds the digit count). -/
def natToStrAux : Nat → Nat → Str
  | 0, _ => []
  | fuel + 1, n =>
    if n < 10 then [Char.ofNat (48 + n)]
    else natToStrAux fuel (n / 10) ++ [Char.ofNat (48 + n % 10)]

def natToStr (n : Nat) : Str := natToStrAux (n + 1) n

def intToStr (i : Int) : Str :=
  if i < 0 then '-' :: natToStr i.natAbs else natToStr i.toNat

/-- Digit run accumulator for Python `int(str)`. -/
def digitsValAux : Str → Nat → Option Nat
  | [], acc => some acc
  | c :: t, acc => if isDigitC c then digitsValAux t (acc * 10 + (c.toNat - 48)) else none

/-- Nonempty all-digit string to its value. -/
def digitsVal : Str → Option Nat
  | [] => none
  | c :: t => digitsValAux (c :: t) 0

/-- Python `int(s)` for a string argument: surrounding whitespace and an
optional sign are accepted, anything else raises (`none`). -/
def pyIntOfStr (s : Str) : Option Int :=
  let t := pystrip s
  match t with
  | [] => none
  | c :: r =>
    if c = '-' then (digitsVal r).map (fun n => -(n : Int))
    else if c = '+' then (digitsVal r).map (fun n => (n : Int))
    else (digitsVal t).map (fun n => (n : Int))

/-! ## JSON values, serialization (`json.dumps`) and parsing (`json.loads`) -/

/-- JSON values as produced by `json.loads` (numbers restricted to integers;
inputs containing float literals are outside the model). -/
inductive J where
  | null : J
  | bool : Bool → J
  | num : Int → J
  | str : Str → J
  | arr : List J → J
  | obj : List (Str × J) → J
deriving Repr

/-- Four lowercase hex digits, as in `json.dumps` unicode escapes. -/
def hex4 (n : Nat) : Str :=
  let d := fun k => Char.ofNat (if k < 10 then 48 + k else 87 + k)
  [d (n / 4096 % 16), d (n / 256 % 16), d (n / 16 % 16), d (n % 16)]

/-- Escape of one character under `json.dumps` with `ensure_ascii=True`. -/
def escChar (c : Char) : Str :=
  if c = qm then [bsl, qm]
  else if c = bsl then [bsl, bsl]
  else if c = '\n' then [bsl, 'n']
  else if c = '\r' then [bsl, 'r']
  else if c = '\t' then [bsl, 't']
  else if c = Char.ofNat 8 then [bsl, 'b']
  else if c = Char.ofNat 12 then [bsl, 'f']
  else if c.toNat < 32 then bsl :: 'u' :: hex4 c.toNat
  else if c.toNat < 127 then [c]
  else if c.toNat < 65536 then bsl :: 'u' :: hex4 c.toNat
  else
    let v := c.toNat - 65536
    bsl :: 'u' :: hex4 (55296 + v / 1024) ++ bsl :: 'u' :: hex4 (56320 + v % 1024)

/-- `json.dumps` of a string. -/
def serStr (s : Str) : Str := qm :: (s.map escChar).flatten ++ [qm]

mutual

/-- `json.dumps(value, separators=(",", ":"))`. -/
def serJ : J → Str
  | .null => lit "null"
  | .bool b => if b then lit "true" else lit "false"
  | .num n => intToStr n
  | .str s => serStr s
  | .arr xs => '[' :: serArr xs ++ [']']
  | .obj kvs => lbr :: serObj kvs ++ [rbr]

def serArr : List J → Str
  | [] => []
  | [x] => serJ x
  | x :: y :: xs => serJ x ++ ',' :: serArr (y :: xs)

def serObj : List (Str × J) → Str
  | [] => []
  | [(k, v)] => serStr k ++ ':' :: serJ v
  | (k, v) :: p :: xs => serStr k ++ ':' :: serJ v ++ ',' :: serObj (p :: xs)

end

def hexDigitVal (c : Char) : Option Nat :=
  if '0' ≤ c ∧ c ≤ '9' then some (c.toNat - 48)
  else if 'a' ≤ c ∧ c ≤ 'f' then some (c.toNat - 87)
  else if 'A' ≤ c ∧ c ≤ 'F' then some (c.toNat - 55)
  else none

/-- Decoder for one `\uXXXX` payload; valid surrogate pairs are combined,
lone surrogates map to U+FFFD (modelling choice: Lean `Char` has no
surrogate code points). -/
def uEscChar (n : Nat) : Char :=
  if 55296 ≤ n ∧ n ≤ 57343 then Char.ofNat 65533 else Char.ofNat n

/-- String-body scanner of `json.loads` (after the opening quote), with fuel. -/
def parseStrBody : Nat → Str → Option (Str × Str)
  | 0, _ => none
  | _ + 1, [] => none
  | fuel + 1, c :: t =>
    if c = qm then some ([], t)
    else if c = bsl then
      match t with
      | [] => none
      | e :: t2 =>
        if e = qm then (parseStrBody fuel t2).map (fun p => (qm :: p.1, p.2))
        else if e = bsl then (parseStrBody fuel t2).map (fun p => (bsl :: p.1, p.2))
        else if e = '/' then (parseStrBody fuel t2).map (fun p => ('/' :: p.1, p.2))
        else if e = 'b' then (parseStrBody fuel t2).map (fun p => (Char.ofNat 8 :: p.1, p.2))
        else if e = 'f' then (parseStrBody fuel t2).map (fun p => (Char.ofNat 12 :: p.1, p.2))
        else if e = 'n' then (parseStrBody fuel t2).map (fun p => ('\n' :: p.1, p.2))
        else if e = 'r' then (parseStrBody fuel t2).map (fun p => ('\r' :: p.1, p.2))
        else if e = 't' then (parseStrBody fuel t2).map (fun p => ('\t' :: p.1, p.2))
        else if e = 'u' then
          match t2 with
          | a :: b :: c2 :: d :: t3 =>
            match hexDigitVal a, hexDigitVal b, hexDigitVal c2, hexDigitVal d with
            | some ha, some hb, some hc, some hd =>
              let n := ha * 4096 + hb * 256 + hc * 16 + hd
              if 55296 ≤ n ∧ n ≤ 56319 then
                match t3 with
                | u1 :: u2 :: a2 :: b2 :: c3 :: d2 :: t4 =>
                  if u1 = bsl ∧ u2 = 'u' then
                    match hexDigitVal a2, hexDigitVal b2, hexDigitVal c3, hexDigitVal d2 with
                    | some ha2, some hb2, some hc2, some hd2 =>
                      let m := ha2 * 4096 + hb2 * 256 + hc2 * 16 + hd2
                      if 56320 ≤ m ∧ m ≤ 57343 then
                        (parseStrBody fuel t4).map
                          (fun p => (Char.ofNat (65536 + (n - 55296) * 1024 + (m - 56320)) :: p.1, p.2))
                      else (parseStrBody fuel t3).map (fun p => (uEscChar n :: p.1, p.2))
                    | _, _, _, _ => (parseStrBody fuel t3).map (fun p => (uEscChar n :: p.1, p.2))
                  else (parseStrBody fuel t3).map (fun p => (uEscChar n :: p.1, p.2))
                | _ => (parseStrBody fuel t3).map (fun p => (uEscChar n :: p.1, p.2))
              else (parseStrBody fuel t3).map (fun p => (uEscChar n :: p.1, p.2))
            | _, _, _, _ => none
          | _ => none
        else none
    else if c.toNat < 32 then none
    else (parseStrBody fuel t).map (fun p => (c :: p.1, p.2))

/-- Integer literal of JSON (no leading zeros, no fraction/exponent: float
literals are outside the model and fail to parse). -/
def parseNatPart (s : Str) : Option (Nat × Str) :=
  let ds := s.takeWhile isDigitC
  let r := s.drop ds.length
  if ds.isEmpty then none
  else if 1 < ds.length ∧ ds.head? = some '0' then none
  else
    match r with
    | c :: _ => if c = '.' ∨ c = 'e' ∨ c = 'E' then none else some (natOfDigits ds, r)
    | [] => some (natOfDigits ds, r)

def parseNum (s : Str) : Option (J × Str) :=
  match s with
  | [] => none
  | c :: t =>
    if c = '-' then (parseNatPart t).map (fun p => (J.num (-(p.1 : Int)), p.2))
    else (parseNatPart s).map (fun p => (J.num (p.1 : Int), p.2))

/-- Consume a literal keyword tail. -/
def keywordTail (pat : Str) (s : Str) : Option Str :=
  if List.isPrefixOf pat s then some (s.drop pat.length) else none

mutual

/-- Recursive-descent value parser of `json.loads`, with fuel. -/
def parseVal : Nat → Str → Option (J × Str)
  | 0, _ => none
  | fuel + 1, s0 =>
    let s := s0.dropWhile jsonWs
    match s with
    | [] => none
    | c :: t =>
      if c = 'n' then (keywordTail (lit "ull") t).map (fun r => (J.null, r))
      else if c = 't' then (keywordTail (lit "rue") t).map (fun r => (J.bool true, r))
      else if c = 'f' then (keywordTail (lit "alse") t).map (fun r => (J.bool false, r))
      else if c = qm then (parseStrBody (fuel + 1) t).map (fun p => (J.str p.1, p.2))
      else if c = '[' then
        let t1 := t.dropWhile jsonWs
        match t1 with
        | [] => none
        | c2 :: r2 =>
          if c2 = ']' then some (J.arr [], r2)
          else (parseArrItems fuel t1).map (fun p => (J.arr p.1, p.2))
      else if c = lbr then
        let t1 := t.dropWhile jsonWs
        match t1 with
        | [] => none
        | c2 :: r2 =>
          if c2 = rbr then some (J.obj [], r2)
          else (parseObjItems fuel t1).map (fun p => (J.obj p.1, p.2))
      else parseNum s

/-- Array items, positioned at the first character of a value. -/
def parseArrItems : Nat → Str → Option (List J × Str)
  | 0, _ => none
  | fuel + 1, s =>
    match parseVal fuel s with
    | none => none
    | some (v, rest) =>
      let r1 := rest.dropWhile jsonWs
      match r1 with
      | [] => none
      | c :: r2 =>
        if c = ',' then (parseArrItems fuel r2).map (fun p => (v :: p.1, p.2))
        else if c = ']' then some ([v], r2)
        else none

/-- Object members, positioned at the opening quote of a key. -/
def parseObjItems : Nat → Str → Option (List (Str × J) × Str)
  | 0, _ => none
  | fuel + 1, s =>
    match s.dropWhile jsonWs with
    | [] => none
    | c :: t =>
      if c = qm then
        match parseStrBody (fuel + 1) t with
        | none => none
        | some (k, r1) =>
          match r1.dropWhile jsonWs with
          | [] => none
          | c2 :: r2 =>
            if c2 = ':' then
              match parseVal fuel r2 with
              | none => none
              | some (v, r3) =>
                match r3.dropWhile jsonWs with
                | [] => none
                | c3 :: r4 =>
                  if c3 = ',' then (parseObjItems fuel r4).map (fun p => ((k, v) :: p.1, p.2))
                  else if c3 = rbr then some ([(k, v)], r4)
                  else none
            else none
      else none

end

/-- `json.loads`: parse one value, then only whitespace may remain. -/
def jsonLoads (s : Str) : Option J :=
  match parseVal (4 * s.length + 16) s with
  | some (v, r) => if (r.dropWhile jsonWs).isEmpty then some v else none
  | none => none

/-! ## Python value helpers (`str()`, `_safe_str`, `_to_non_negative_int`, …) -/

mutual

/-- Python `str(value)` for JSON-shaped values (`repr` is used for elements
inside containers, as Python does). -/
def pyStr : J → Str
  | .null => lit "None"
  | .bool b => if b then lit "True" else lit "False"
  | .num n => intToStr n
  | .str s => s
  | .arr xs => '[' :: pyReprList xs ++ [']']
  | .obj kvs => lbr :: pyReprObj kvs ++ [rbr]

/-- Python `repr(value)` (best-effort model: strings in single quotes). -/
def pyRepr : J → Str
  | .null => lit "None"
  | .bool b => if b then lit "True" else lit "False"
  | .num n => intToStr n
  | .str s => apo :: s ++ [apo]
  | .arr xs => '[' :: pyReprList xs ++ [']']
  | .obj kvs => lbr :: pyReprObj kvs ++ [rbr]

def pyReprList : List J → Str
  | [] => []
  | [x] => pyRepr x
  | x :: y :: xs => pyRepr x ++ ',' :: ' ' :: pyReprList (y :: xs)

def pyReprObj : List (Str × J) → Str
  | [] => []
  | [(k, v)] => pyRepr (.str k) ++ ':' :: ' ' :: pyRepr v
  | (k, v) :: p :: xs => pyRepr (.str k) ++ ':' :: ' ' :: pyRepr v ++ ',' :: ' ' :: pyReprObj (p :: xs)

end

/-- Python dict lookup `d.get(k)`; duplicate keys collapse to the last
binding, as in a dict built by `json.loads`. -/
def objGet (kvs : List (Str × J)) (k : Str) : Option J :=
  kvs.foldl (fun acc p => if p.1 = k then some p.2 else acc) none

/-- Python `k in d`. -/
def objHasKey (kvs : List (Str × J)) (k : Str) : Bool :=
  kvs.any (fun p => p.1 == k)

/-- Source `_safe_str`: empty for `None`/absent, else `str(value).strip()`. -/
def _safe_str (value : Option J) : Str :=
  match value with
  | none => []
  | some .null => []
  | some v => pystrip (pyStr v)

/-- Source `_to_non_negative_int`: `max(0, int(value))`, with `TypeError` /
`ValueError` mapped to 0. -/
def _to_non_negative_int (value : Option J) : Int :=
  match value with
  | some (.num n) => max 0 n
  | some (.bool b) => if b then 1 else 0
  | some (.str s) =>
    match pyIntOfStr s with
    | some i => max 0 i
    | none => 0
  | _ => 0

/-! ## Directive model and the normalizer helpers -/

def DEFAULT_HOLD_REASONING : Str :=
  lit "Comms degraded. Holding sectors and observing target movement."

def NON_THINKING_RESCUE_MODEL : Str := lit "gemini-2.0-flash"

/-- The directive dict: the twelve keys every normalized payload carries. -/
structure Directive where
  order : Str
  target_zone : Str
  squad_size : Int
  priority : Str
  from_zone : Str
  to_zone : Str
  count : Int
  decoy_zone : Str
  decoy_size : Int
  real_target_zone : Str
  real_size : Int
  reasoning : Str
deriving Repr, DecidableEq

/-- Source `_build_hold_directive`. -/
def _build_hold_directive (reasoning : Str) : Directive :=
  { order := lit "hold"
    target_zone := []
    squad_size := 0
    priority := []
    from_zone := []
    to_zone := []
    count := 0
    decoy_zone := []
    decoy_size := 0
    real_target_zone := []
    real_size := 0
    reasoning := if reasoning.isEmpty then DEFAULT_HOLD_REASONING else reasoning }

/-- The directive dict in its construction order, as serialized by
`json.dumps` (Python dicts preserve insertion order; `_coerce_directive` and
`_extract_from_loose_text` only overwrite existing keys of the hold dict). -/
def dirToJ (d : Directive) : J :=
  J.obj
    [ (lit "order", .str d.order)
    , (lit "target_zone", .str d.target_zone)
    , (lit "squad_size", .num d.squad_size)
    , (lit "priority", .str d.priority)
    , (lit "from_zone", .str d.from_zone)
    , (lit "to_zone", .str d.to_zone)
    , (lit "count", .num d.count)
    , (lit "decoy_zone", .str d.decoy_zone)
    , (lit "decoy_size", .num d.decoy_size)
    , (lit "real_target_zone", .str d.real_target_zone)
    , (lit "real_size", .num d.real_size)
    , (lit "reasoning", .str d.reasoning) ]

/-- Source `_to_json` applied to a directive dict. -/
def dirToJson (d : Directive) : Str := serJ (dirToJ d)

/-- The canonical hold payload emitted on every unrecoverable failure. -/
def holdJson : Str := dirToJson (_build_hold_directive DEFAULT_HOLD_REASONING)

/-- Source `_normalize_order` (argument is a Python value or `None`). -/
def _normalize_order (value : Option J) : Str :=
  let token := lowerStr (_safe_str value)
  if token = lit "reinforce" ∨ token = lit "redistribute" ∨ token = lit "recapture" ∨
      token = lit "hold" ∨ token = lit "feint" then token
  else lit "invalid"

/-- Source `_normalize_zone`. -/
def _normalize_zone (value : Option J) : Str :=
  let token := lowerStr (_safe_str value)
  if token = lit "zone_alpha" then lit "alpha"
  else if token = lit "zone_bravo" then lit "bravo"
  else if token = lit "zone_charlie" then lit "charlie"
  else token

/-- Source `_is_actionable_directive`: the per-order required-field rules. -/
def _is_actionable_directive (d : Directive) : Bool :=
  let order := lowerStr (pystrip d.order)
  if order = lit "hold" then true
  else if order = lit "reinforce" ∨ order = lit "recapture" then
    !(pystrip d.target_zone).isEmpty && decide (0 < max 0 d.squad_size)
  else if order = lit "redistribute" then
    let f := pystrip d.from_zone
    let t := pystrip d.to_zone
    !f.isEmpty && !t.isEmpty && f ≠ t && decide (0 < max 0 d.count)
  else if order = lit "feint" then
    let dz := pystrip d.decoy_zone
    let rt := pystrip d.real_target_zone
    !dz.isEmpty && !rt.isEmpty && dz ≠ rt &&
      decide (0 < max 0 d.decoy_size) && decide (0 < max 0 d.real_size)
  else false

/-! ## JSON payload locator (`_extract_json_payload`) -/

/-- Depth-tracking scan of the `for idx in range(start, len(text))` loop:
returns the first balanced brace span starting at the scan head. -/
def braceScan : Str → Int → Str → Option Str
  | [], _, _ => none
  | c :: t, depth, acc =>
    if c = lbr then braceScan t (depth + 1) (acc ++ [c])
    else if c = rbr then
      if depth - 1 = 0 then some (acc ++ [c]) else braceScan t (depth - 1) (acc ++ [c])
    else braceScan t depth (acc ++ [c])

/-- Markdown code-fence stripping of `_extract_json_payload`: when the
stripped text opens with a triple backtick, drop the opening fence line and
everything from the last fence marker onward. -/
def defence (text0 : Str) : Str :=
  if startsWithS text0 [bq, bq, bq] then
    match strFind (lit "\n") text0 with
    | some i =>
      (match strRFind [bq, bq, bq] (text0.drop (i + 1)) with
       | some j => pystrip ((text0.drop (i + 1)).take j)
       | none => text0.drop (i + 1))
    | none =>
      (match strRFind [bq, bq, bq] text0 with
       | some j => pystrip (text0.take j)
       | none => text0)
  else text0

/-- Source `_extract_json_payload`. -/
def _extract_json_payload (raw_text : Str) : Option Str :=
  if raw_text.isEmpty then none
  else
    let text1 := defence (pystrip raw_text)
    if startsWithS text1 [lbr] && endsWithS text1 [rbr] then some text1
    else
      match strFind [lbr] text1 with
      | none => none
      | some start => braceScan (text1.drop start) 0 []

/-! ## Loose-token recovery (`_extract_from_loose_text`)

The five regex shapes of the source are modelled directly: a leftmost
search for a quoted key (list of case-insensitive alternatives), `\s*:\s*`,
then a value matcher.  Alternatives are tried in pattern order at each
position; the optional-quote / greedy-class backtracking of the originals
collapses to the direct scans below. -/

/-- Case-insensitive literal prefix: `pat` must already be lowercase. -/
def ciPrefixDrop (pat : Str) (s : Str) : Option Str :=
  match pat, s with
  | [], r => some r
  | _ :: _, [] => none
  | p :: pt, c :: ct => if lowerChar c = p then ciPrefixDrop pt ct else none

/-- Consume `\s*:\s*`. -/
def colonWsDrop (s : Str) : Option Str :=
  match s.dropWhile reWs with
  | c :: r => if c = ':' then some (r.dropWhile reWs) else none
  | [] => none

/-- Value matcher `"?([A-Za-z_]+)"?`: optional quote then a nonempty
name-character run (the capture). -/
def nameValCapture (s : Str) : Option Str :=
  let s1 := match s with
    | c :: r => if c = qm then r else s
    | [] => s
  let tok := s1.takeWhile nameChar
  if tok.isEmpty then none else some tok

/-- Value matcher `(\d+)`. -/
def digitsCapture (s : Str) : Option Str :=
  let tok := s.takeWhile isDigitC
  if tok.isEmpty then none else some tok

/-- Value matcher `"([^"]*)"`. -/
def quotedCapture (s : Str) : Option Str :=
  match s with
  | c :: r =>
    if c = qm then
      let tok := r.takeWhile (fun x => x ≠ qm)
      match r.drop tok.length with
      | c2 :: _ => if c2 = qm then some tok else none
      | [] => none
    else none
  | [] => none

/-- Try the whole pattern `"(key1|key2|...)"\s*:\s*<value>` at one position. -/
def keyPatternAt (keys : List Str) (valCapture : Str → Option Str) (s : Str) : Option Str :=
  match s with
  | c :: r =>
    if c = qm then
      keys.firstM (fun k =>
        match ciPrefixDrop k r with
        | none => none
        | some r2 =>
          match r2 with
          | c2 :: r3 => if c2 = qm then (colonWsDrop r3).bind valCapture else none
          | [] => none)
    else none
  | [] => none

/-- Leftmost match: `re.search` over all start positions. -/
def reSearch (keys : List Str) (valCapture : Str → Option Str) : Str → Option Str
  | [] => none
  | c :: t =>
    match keyPatternAt keys valCapture (c :: t) with
    | some cap => some cap
    | none => reSearch keys valCapture t

/-- The `order`/`directive` capture of the loose-recovery order regex. -/
def looseOrderCapture (raw_text : Str) : Option Str :=
  reSearch [lit "order", lit "directive"] nameValCapture raw_text

/-- Source `_extract_from_loose_text`. -/
def _extract_from_loose_text (raw_text : Str) : Option Directive :=
  match looseOrderCapture raw_text with
  | none => none
  | some orderTok =>
    let order0 := _normalize_order (some (.str orderTok))
    let order := if order0 = lit "invalid" then lit "hold" else order0
    let base := _build_hold_directive DEFAULT_HOLD_REASONING
    let zoneOf := fun (keys : List Str) (dflt : Str) =>
      match reSearch keys nameValCapture raw_text with
      | some cap => _normalize_zone (some (.str cap))
      | none => dflt
    let intOf := fun (keys : List Str) (dflt : Int) =>
      match reSearch keys digitsCapture raw_text with
      | some cap => _to_non_negative_int (some (.str cap))
      | none => dflt
    let reasoning :=
      match reSearch [lit "reasoning"] quotedCapture raw_text with
      | some cap =>
        let r := _safe_str (some (.str cap))
        if r.isEmpty then base.reasoning else r
      | none => base.reasoning
    some
    { order := order
      target_zone := zoneOf [lit "target_zone", lit "targetzone", lit "target"] base.target_zone
      squad_size := intOf [lit "squad_size", lit "squadsize"] base.squad_size
      priority := base.priority
      from_zone := zoneOf [lit "from_zone", lit "fromzone", lit "from"] base.from_zone
      to_zone := zoneOf [lit "to_zone", lit "tozone", lit "to"] base.to_zone
      count := intOf [lit "count"] base.count
      decoy_zone := zoneOf [lit "decoy_zone", lit "decoyzone"] base.decoy_zone
      decoy_size := intOf [lit "decoy_size", lit "decoysize"] base.decoy_size
      real_target_zone := zoneOf [lit "real_target_zone", lit "realtargetzone"] base.real_target_zone
      real_size := intOf [lit "real_size", lit "realsize"] base.real_size
      reasoning := reasoning }

/-! ## Directive coercion (`_coerce_directive`) -/

def knownDirectiveKeys : List Str :=
  [ lit "order", lit "directive", lit "reasoning", lit "target_zone", lit "squad_size"
  , lit "priority", lit "from_zone", lit "to_zone", lit "count", lit "decoy_zone"
  , lit "decoy_size", lit "real_target_zone", lit "real_size" ]

/-- The effective source dict of `_coerce_directive`: a nested `directive`
dict replaces the envelope; a nested `directive` string becomes the `order`
of a copy when the envelope has no `order` key. -/
def coerceSource (kvs : List (Str × J)) : List (Str × J) :=
  match objGet kvs (lit "directive") with
  | some (.obj nested) => nested
  | some (.str s) =>
    if objHasKey kvs (lit "order") then kvs else kvs ++ [(lit "order", .str s)]
  | _ => kvs

/-- The order token `_coerce_directive` normalizes. -/
def coerceOrderToken (parsed : J) : Option J :=
  match parsed with
  | .obj kvs => objGet (coerceSource kvs) (lit "order")
  | _ => none

/-- The directive `_coerce_directive` assembles once the order token is
recognized: field reads go through the effective source dict, the envelope
reasoning backs up an empty nested reasoning, and an empty result falls back
to the default sentence. -/
def coerceBuild (kvs : List (Str × J)) : Directive :=
  let envelope_reasoning := _safe_str (objGet kvs (lit "reasoning"))
  let source := coerceSource kvs
  let reasoning0 := _safe_str (objGet source (lit "reasoning"))
  let reasoning1 :=
    if reasoning0.isEmpty ∧ ¬envelope_reasoning.isEmpty then envelope_reasoning
    else reasoning0
  { order := _normalize_order (coerceOrderToken (.obj kvs))
    target_zone := _normalize_zone (objGet source (lit "target_zone"))
    squad_size := _to_non_negative_int (objGet source (lit "squad_size"))
    priority := _safe_str (objGet source (lit "priority"))
    from_zone := _normalize_zone (objGet source (lit "from_zone"))
    to_zone := _normalize_zone (objGet source (lit "to_zone"))
    count := _to_non_negative_int (objGet source (lit "count"))
    decoy_zone := _normalize_zone (objGet source (lit "decoy_zone"))
    decoy_size := _to_non_negative_int (objGet source (lit "decoy_size"))
    real_target_zone := _normalize_zone (objGet source (lit "real_target_zone"))
    real_size := _to_non_negative_int (objGet source (lit "real_size"))
    reasoning := if reasoning1.isEmpty then DEFAULT_HOLD_REASONING else reasoning1 }

/-- Source `_coerce_directive`. -/
def _coerce_directive (parsed : J) : Option Directive :=
  match parsed with
  | .obj kvs =>
    if !knownDirectiveKeys.any (fun k => objHasKey kvs k) then none
    else if _normalize_order (coerceOrderToken (.obj kvs)) = lit "invalid" then none
    else some (coerceBuild kvs)
  | _ => none

/-! ## The normalizer (`_normalize_swarm_directive`) -/

/-- Source `_normalize_swarm_directive`: returns
`(normalized_json, is_valid, status)`. -/
def _normalize_swarm_directive (raw_text : Str) : Str × Bool × Str :=
  match _extract_json_payload raw_text with
  | none =>
    match _extract_from_loose_text raw_text with
    | some loose => (dirToJson loose, _is_actionable_directive loose, lit "loose_tokens")
    | none => (holdJson, false, lit "no_json_object")
  | some payload =>
    match jsonLoads payload with
    | none =>
      match _extract_from_loose_text raw_text with
      | some loose => (dirToJson loose, _is_actionable_directive loose, lit "json_decode_loose_tokens")
      | none => (holdJson, false, lit "json_decode_failed")
    | some parsed =>
      match _coerce_directive parsed with
      | none => (holdJson, false, lit "directive_shape_invalid")
      | some directive => (dirToJson directive, true, lit "model_valid")

/-! ## Candidates, outcomes and the ranker (`_select_candidate_outcome`) -/

structure Candidate where
  source : Str
  text : Str
deriving Repr, DecidableEq

structure Outcome where
  source : Str
  raw : Str
  status : Str
  model_valid : Bool
  normalized_json : Str
deriving Repr, DecidableEq

/-- The outcome dict built for one candidate inside the ranker loop. -/
def outcomeOfCandidate (c : Candidate) : Outcome :=
  let r := _normalize_swarm_directive c.text
  { source := c.source, raw := c.text, status := r.2.2, model_valid := r.2.1
    normalized_json := r.1 }

/-- The synthetic outcome for an empty candidate list. -/
def noCandidatesOutcome : Outcome :=
  { source := lit "<none>", raw := [], status := lit "no_candidates"
    model_valid := false, normalized_json := holdJson }

/-- Is this status one of the two partially-recoverable statuses? -/
def isRecoverableStatus (s : Str) : Bool :=
  s == lit "loose_tokens" || s == lit "json_decode_loose_tokens"

/-- The ranker loop with its two accumulators (`best_recoverable`,
`first_invalid`). -/
def selectLoop : List Candidate → Option Outcome → Option Outcome → Outcome
  | [], best_recoverable, first_invalid =>
    match best_recoverable with
    | some o => o
    | none =>
      match first_invalid with
      | some o => o
      | none => noCandidatesOutcome
  | c :: rest, best_recoverable, first_invalid =>
    let o := outcomeOfCandidate c
    if o.model_valid then o
    else
      selectLoop rest
        (if isRecoverableStatus o.status ∧ best_recoverable = none then some o
         else best_recoverable)
        (if first_invalid = none then some o else first_invalid)

/-- Source `_select_candidate_outcome`. -/
def _select_candidate_outcome (candidates : List Candidate) : Outcome :=
  selectLoop candidates none none

/-! ## The oracle response object and the candidate extractor -/

/-- Result of reading one attribute of the duck-typed response object: the
access can raise, which the source catches per extraction block. -/
inductive PyAttr (α : Type) where
  | raises : PyAttr α
  | val : α → PyAttr α

/-- One content part: optional text, the reasoning/thought flag, and an
optional function-call argument payload. -/
structure GPart where
  text : Option Str
  thought : Bool
  fcArgs : Option J

/-- One response candidate: its content parts and its finish reason. -/
structure GCand where
  parts : List GPart
  finishReason : Option Str

/-- The oracle response object, at the granularity the source probes it. -/
structure GResponse where
  textAcc : PyAttr (Option Str)
  parsedAcc : PyAttr (Option J)
  candsAcc : PyAttr (List GCand)

/-- Serialization used for `response.parsed` and `function_call.args`:
compact JSON dump for structured values, `str(...).strip()` otherwise. -/
def structuredText (v : J) : Str :=
  match v with
  | .obj _ => serJ v
  | .arr _ => serJ v
  | _ => pystrip (pyStr v)

/-- Source `_append_candidate`: trimming plus exact-text deduplication.  The
state is the candidate list and the `seen_texts` set (kept as a list). -/
def _append_candidate (st : List Candidate × List Str) (source text : Str) :
    List Candidate × List Str :=
  if text.isEmpty then st
  else
    let trimmed := pystrip text
    if trimmed.isEmpty then st
    else if st.2.contains trimmed then st
    else (st.1 ++ [⟨source, trimmed⟩], st.2 ++ [trimmed])

def fcArgsSource (i j : Nat) : Str :=
  lit "candidate[" ++ natToStr i ++ lit "].part[" ++ natToStr j ++ lit "].function_call.args"

def partsMergedSource (i : Nat) : Str :=
  lit "candidate[" ++ natToStr i ++ lit "].parts_merged"

def partSource (i j : Nat) : Str :=
  lit "candidate[" ++ natToStr i ++ lit "].part[" ++ natToStr j ++ lit "]"

def allPartsMergedSource (i : Nat) : Str :=
  lit "candidate[" ++ natToStr i ++ lit "].all_parts_merged"

/-- The cleaned text of one part: present when `part.text` is truthy and
still nonempty after trimming. -/
def cleanedText (part : GPart) : Option Str :=
  match part.text with
  | some t =>
    if t.isEmpty then none
    else
      let c := pystrip t
      if c.isEmpty then none else some c
  | none => none

/-- The per-part loop of `_extract_response_candidates`: accumulates
`part_texts`, `all_part_texts` and appends function-call candidates as it
goes. -/
def partLoop (i : Nat) :
    List (Nat × GPart) → List (Nat × Str) × List (Nat × Str) × (List Candidate × List Str) →
    List (Nat × Str) × List (Nat × Str) × (List Candidate × List Str)
  | [], acc => acc
  | (j, part) :: rest, (part_texts, all_part_texts, st) =>
    let all_part_texts' :=
      match cleanedText part with
      | some c => all_part_texts ++ [(j, c)]
      | none => all_part_texts
    let part_texts' :=
      match cleanedText part with
      | some c => if part.thought then part_texts else part_texts ++ [(j, c)]
      | none => part_texts
    let st' :=
      match part.fcArgs with
      | some args => _append_candidate st (fcArgsSource i j) (structuredText args)
      | none => st
    partLoop i rest (part_texts', all_part_texts', st')

/-- Join the collected texts (Python `"".join`). -/
def joinTexts (ts : List (Nat × Str)) : Str := (ts.map Prod.snd).flatten

/-- The per-response-candidate body of the extraction loop. -/
def candLoopStep (i : Nat) (cand : GCand) (st : List Candidate × List Str) :
    List Candidate × List Str :=
  if cand.parts.isEmpty then st
  else
    let r := partLoop i cand.parts.enum ([], [], st)
    let part_texts := r.1
    let all_part_texts := r.2.1
    let st1 := r.2.2
    let st2 :=
      if part_texts.isEmpty then st1
      else
        let stM := _append_candidate st1 (partsMergedSource i) (pystrip (joinTexts part_texts))
        part_texts.foldl (fun s p => _append_candidate s (partSource i p.1) p.2) stM
    if all_part_texts.isEmpty then st2
    else _append_candidate st2 (allPartsMergedSource i) (pystrip (joinTexts all_part_texts))

/-- Source `FoodAnalyzer._extract_response_candidates`. -/
def _extract_response_candidates (response : GResponse) : List Candidate :=
  let st0 : List Candidate × List Str := ([], [])
  let st1 :=
    match response.textAcc with
    | .raises => st0
    | .val none => st0
    | .val (some t) =>
      if t.isEmpty then st0 else _append_candidate st0 (lit "response.text") (pystrip t)
  let st2 :=
    match response.parsedAcc with
    | .raises => st1
    | .val none => st1
    | .val (some .null) => st1
    | .val (some p) => _append_candidate st1 (lit "response.parsed") (structuredText p)
  let st3 :=
    match response.candsAcc with
    | .raises => st2
    | .val cands =>
      cands.enum.foldl (fun st (ic : Nat × GCand) => candLoopStep ic.1 ic.2 st) st2
  st3.1

/-- Source `_extract_response_diagnostics`, restricted to the one diagnostic
the control flow consumes (`finish_reasons`; the other four entries feed
logging only). -/
def _extract_finish_reasons (response : GResponse) : Str :=
  match response.candsAcc with
  | .raises => []
  | .val cands =>
    let entries := cands.enum.filterMap
      (fun ic =>
        match ic.2.finishReason with
        | some fr => if fr.isEmpty then none else some ('c' :: natToStr ic.1 ++ ':' :: fr)
        | none => none)
    match entries with
    | [] => []
    | e :: rest => rest.foldl (fun acc x => acc ++ ',' :: x) e

/-! ## Attempt orchestrator (`FoodAnalyzer.strategize_swarm`) -/

/-- The configuration fields `strategize_swarm` reads. -/
structure Settings where
  swarm_model : Str
  swarm_retry_model : Str
  swarm_retry_count : Int
  gemini_model : Str

/-- One entry of the mutable `attempts` list. -/
structure AttemptSpec where
  name : Str
  model : Str
  temperature : Rat
deriving Repr, DecidableEq

/-- Record of one executed attempt: its resolved model string and clamped
temperature, exactly the values the oracle invocation receives. -/
structure ExecRec where
  name : Str
  model : Str
  temperature : Rat
deriving Repr, DecidableEq

/-- What the caller receives. -/
structure SwarmResult where
  raw_text : Str
  model : Str
  provider : Str
deriving Repr, DecidableEq

/-- One oracle invocation either raises (`schemaBug` marks the specific SDK
`TypeError` that triggers the in-attempt no-schema retry) or returns a
response object. -/
inductive OracleResult where
  | raises : (schemaBug : Bool) → OracleResult
  | ok : GResponse → OracleResult

/-- The oracle collaborator: attempt index (1-based) and schema mode to a
raise-or-response behaviour.  Quantifying over this type covers every
response shape and every exception pattern. -/
def Oracle : Type := Nat → Bool → OracleResult

/-- Python `a or b` on strings. -/
def pyOrStr (a b : Str) : Str := if a.isEmpty then b else a

/-- Temperature clamp `max(0.0, min(2.0, t))`. -/
def clampTemp (t : Rat) : Rat := max 0 (min 2 t)

/-- One attempt's invocation including the schema-parse-bug workaround: a
schema-mode call whose `schemaBug` exception triggers one no-schema call of
the same attempt; any other exception fails the attempt.  The source's
debug `print` statements (which re-read `response.text` and
`response.candidates` inside the same `try` block) are I/O-only and not
modelled; a response whose accessors raise is instead handled by the
per-block `try/except` of the extractor, as on the no-schema path. -/
def invokeAttempt (oracle : Oracle) (idx : Nat) : Option GResponse :=
  match oracle idx true with
  | .ok resp => some resp
  | .raises schemaBug =>
    if schemaBug then
      match oracle idx false with
      | .ok resp => some resp
      | .raises _ => none
    else none

/-- Source `_is_likely_thinking_model`. -/
def _is_likely_thinking_model (model_name : Str) : Bool :=
  let token := lowerStr (pystrip model_name)
  startsWithS token (lit "gemini-3") || startsWithS token (lit "gemini-2.5")

/-- Source `_should_force_non_thinking_rescue`. -/
def _should_force_non_thinking_rescue (outcome : Outcome) (finish_reasons : Str) : Bool :=
  lowerStr outcome.status == lit "no_json_object" &&
    containsSub (upperStr finish_reasons) (lit "MAX_TOKENS")

/-- The attempt loop of `strategize_swarm`.  Besides the returned result it
collects the trace of executed attempts (name, resolved model, clamped
temperature) so that theorems can speak about which configuration each
attempt actually ran with. -/
def rescueOverride (outcome : Outcome) (finish_reasons : Str) :
    List AttemptSpec → Option AttemptSpec
  | [] => none
  | next :: _ =>
    if _should_force_non_thinking_rescue outcome finish_reasons &&
        _is_likely_thinking_model next.model then
      some ⟨next.name, NON_THINKING_RESCUE_MODEL, 0⟩
    else none

/-- The attempt loop of `strategize_swarm`.  The source mutates
`attempts[attempt_index]` in place; here the pending mutation travels as the
`override` applied to the next list head, which keeps the recursion
structural.  Besides the returned result the loop collects the trace of
executed attempts (name, resolved model, clamped temperature), i.e. the
configuration each oracle invocation actually received. -/
def strategizeLoop (oracle : Oracle) (selectedModel : Str) :
    List AttemptSpec → Option AttemptSpec → Nat → List ExecRec →
    SwarmResult × List ExecRec
  | [], _, _, trace =>
    ({ raw_text := holdJson
       model := ((trace.getLast?).map ExecRec.model).getD selectedModel
       provider := lit "vertex_gemini" }, trace)
  | attempt0 :: rest, override, idx, trace =>
    let attempt := override.getD attempt0
    let attempt_model := pyOrStr (pystrip attempt.model) selectedModel
    let attempt_temperature := clampTemp attempt.temperature
    let record : ExecRec := ⟨attempt.name, attempt_model, attempt_temperature⟩
    match invokeAttempt oracle idx with
    | none => strategizeLoop oracle selectedModel rest none (idx + 1) (trace ++ [record])
    | some response =>
      let candidates := _extract_response_candidates response
      let finish_reasons := _extract_finish_reasons response
      let outcome := _select_candidate_outcome candidates
      if outcome.model_valid then
        ({ raw_text := outcome.normalized_json, model := attempt_model
           provider := lit "vertex_gemini" }, trace ++ [record])
      else
        strategizeLoop oracle selectedModel rest
          (rescueOverride outcome finish_reasons rest) (idx + 1) (trace ++ [record])

/-- The model selection `model_name or settings.swarm_model or
self.model_name` (the analyzer's `model_name` is `settings.gemini_model`). -/
def selectedModelOf (settings : Settings) (model_name : Option Str) : Str :=
  pyOrStr (pyOrStr (model_name.getD []) settings.swarm_model) settings.gemini_model

/-- The initial `attempts` list: `[primary]` plus one `retry` entry when the
clamped retry count is positive. -/
def buildAttempts (settings : Settings) (model_name : Option Str) (temperature : Rat) :
    List AttemptSpec :=
  let selected := selectedModelOf settings model_name
  let retry_model := pyOrStr settings.swarm_retry_model NON_THINKING_RESCUE_MODEL
  let retry_count : Int := max 0 (min 1 settings.swarm_retry_count)
  let base_temperature := clampTemp temperature
  ⟨lit "primary", selected, base_temperature⟩ ::
    (if 0 < retry_count then [⟨lit "retry", retry_model, 0⟩] else [])

/-- Source `FoodAnalyzer.strategize_swarm` (the `max_tokens` argument only
shapes the oracle invocation's token budget, which the abstract oracle
already quantifies over). -/
def strategize_swarm (settings : Settings) (oracle : Oracle) (model_name : Option Str)
    (temperature : Rat) : SwarmResult × List ExecRec :=
  strategizeLoop oracle (selectedModelOf settings model_name)
    (buildAttempts settings model_name temperature) none 1 []

/-- The outcome an attempt would produce, as a function of the oracle alone
(candidate extraction and ranking do not read the attempt configuration). -/
def attemptOutcome (oracle : Oracle) (idx : Nat) : Option (Outcome × Str) :=
  (invokeAttempt oracle idx).map
    (fun resp =>
      (_select_candidate_outcome (_extract_response_candidates resp),
       _extract_finish_reasons resp))

/-- Did attempt `idx` produce a valid directive? -/
def attemptValid (oracle : Oracle) (idx : Nat) : Bool :=
  match attemptOutcome oracle idx with
  | some (o, _) => o.model_valid
  | none => false

/-! ## Specification-side definitions

These definitions restate properties in the spec's vocabulary; theorems
below compare them with the source translations above. -/

def orderEnum : List Str :=
  [lit "reinforce", lit "redistribute", lit "recapture", lit "hold", lit "feint"]

/-- The shape invariant of every normalized payload (C10): order inside the
closed enumeration, non-negative sizes, nonempty reasoning. -/
def DirectiveInvariant (d : Directive) : Prop :=
  d.order ∈ orderEnum ∧ 0 ≤ d.squad_size ∧ 0 ≤ d.count ∧ 0 ≤ d.decoy_size ∧
    0 ≤ d.real_size ∧ d.reasoning ≠ []

/-- Top-level keys of a JSON object value. -/
def jTopKeys : J → List Str
  | .obj kvs => kvs.map Prod.fst
  | _ => []

/-- The twelve directive keys in serialization order. -/
def directiveKeysList : List Str :=
  [ lit "order", lit "target_zone", lit "squad_size", lit "priority", lit "from_zone"
  , lit "to_zone", lit "count", lit "decoy_zone", lit "decoy_size"
  , lit "real_target_zone", lit "real_size", lit "reasoning" ]

/-- The ranker rule as the spec states it (C6): first valid outcome in
extraction order, else first partially-recoverable outcome, else the first
outcome overall, else the synthetic `no_candidates` outcome. -/
def rankerRuleSpec (candidates : List Candidate) : Outcome :=
  let outcomes := candidates.map outcomeOfCandidate
  match outcomes.find? (fun o => o.model_valid) with
  | some o => o
  | none =>
    match outcomes.find? (fun o => isRecoverableStatus o.status) with
    | some o => o
    | none => outcomes.head?.getD noCandidatesOutcome

/-- Fold a list of `(source, text)` items through `_append_candidate`. -/
def appendItems (st : List Candidate × List Str) (items : List (Str × Str)) :
    List Candidate × List Str :=
  items.foldl (fun s it => _append_candidate s it.1 it.2) st

/-- Deduplicating append over a whole item list, starting empty. -/
def dedupAppend (items : List (Str × Str)) : List Candidate :=
  (appendItems ([], []) items).1

def fcItems (i : Nat) (ps : List (Nat × GPart)) : List (Str × Str) :=
  ps.filterMap (fun jp => jp.2.fcArgs.map (fun a => (fcArgsSource i jp.1, structuredText a)))

def partTextsSpec (ps : List (Nat × GPart)) : List (Nat × Str) :=
  ps.filterMap (fun jp =>
    match cleanedText jp.2 with
    | some c => if jp.2.thought then none else some (jp.1, c)
    | none => none)

def allTextsSpec (ps : List (Nat × GPart)) : List (Nat × Str) :=
  ps.filterMap (fun jp => (cleanedText jp.2).map (fun c => (jp.1, c)))

/-- The items one response-candidate contributes, in emission order (C4):
function-call argument payloads in part order, then the merged non-reasoning
text, then the individual non-reasoning part texts, then the merged text of
all parts including reasoning content. -/
def candBlockSpec (i : Nat) (cand : GCand) : List (Str × Str) :=
  if cand.parts.isEmpty then []
  else
    let en := cand.parts.enum
    let pts := partTextsSpec en
    let alls := allTextsSpec en
    fcItems i en ++
      (if pts.isEmpty then []
       else (partsMergedSource i, pystrip (joinTexts pts)) ::
         pts.map (fun p => (partSource i p.1, p.2))) ++
      (if alls.isEmpty then []
       else [(allPartsMergedSource i, pystrip (joinTexts alls))])

/-- All raw `(source, text)` items of one response in emission order:
the convenience text accessor, the pre-parsed accessor, then the
per-response-candidate blocks. -/
def rawItemsSpec (response : GResponse) : List (Str × Str) :=
  (match response.textAcc with
   | .val (some t) => if t.isEmpty then [] else [(lit "response.text", pystrip t)]
   | _ => []) ++
  (match response.parsedAcc with
   | .val (some (J.null)) => []
   | .val (some p) => [(lit "response.parsed", structuredText p)]
   | _ => []) ++
  (match response.candsAcc with
   | .val cands => (cands.enum.map (fun ic => candBlockSpec ic.1 ic.2)).flatten
   | .raises => [])

/-- C7's fast-path wording, read strictly: the text is exactly one
brace-delimited JSON object, i.e. the depth scan from position 0 closes at
the final character. -/
def exactlyOneBraceObject (s : Str) : Bool :=
  match s with
  | c :: _ => c = lbr && (braceScan s 0 [] == some s)
  | [] => false

/-! ## Concrete instances used by counterexamples and witnesses -/

/-- Settings for the C2 witness run. -/
def c2wSettings : Settings :=
  { swarm_model := lit "gemini-3-flash", swarm_retry_model := lit "gemini-2.0-flash"
    swarm_retry_count := 1, gemini_model := lit "gemini-2.5-flash" }

/-- An oracle whose every invocation raises a non-schema-bug exception. -/
def c2wOracle : Oracle := fun _ _ => .raises false

/-- Response for the C4 counterexample: one response-candidate with a plain
part, a reasoning part, another plain part, and a function-call part. -/
def c4cexResponse : GResponse :=
  { textAcc := .val none
    parsedAcc := .val none
    candsAcc := .val
      [⟨[ ⟨some (lit "A"), false, none⟩
        , ⟨some (lit "T"), true, none⟩
        , ⟨some (lit "B"), false, none⟩
        , ⟨none, false, some (J.obj [(lit "k", J.num 1)])⟩ ], none⟩] }

/-- Response for the C5 counterexample and witness oracles: unusable text
with a `MAX_TOKENS` finish reason. -/
def c5Response : GResponse :=
  { textAcc := .val (some (lit "garbage"))
    parsedAcc := .val none
    candsAcc := .val [⟨[], some (lit "MAX_TOKENS")⟩] }

/-- Oracle for C5: the primary attempt returns `c5Response`, the retry
raises. -/
def c5Oracle : Oracle := fun i _ => if i = 1 then .ok c5Response else .raises false

/-- C5 counterexample settings: the configured retry model is not in the
thinking-model class and differs from the rescue model. -/
def c5cexSettings : Settings :=
  { swarm_model := lit "gemini-2.5-flash", swarm_retry_model := lit "gemini-1.5-flash"
    swarm_retry_count := 1, gemini_model := lit "gemini-2.5-flash" }

/-- C5 witness settings: the configured retry model is in the thinking-model
class, so the rescue override applies. -/
def c5wSettings : Settings :=
  { swarm_model := lit "gemini-2.5-flash", swarm_retry_model := lit "gemini-2.5-pro"
    swarm_retry_count := 1, gemini_model := lit "gemini-2.5-flash" }

/-! ## Shared lemmas -/

theorem tni_nonneg (v : Option J) : 0 ≤ _to_non_negative_int v := by
  rcases v with _ | j
  · simp [_to_non_negative_int]
  · cases j <;> simp [_to_non_negative_int]
    · rename_i b; cases b <;> simp
    · rename_i s; rcases h : pyIntOfStr s with _ | i <;> simp [h]

theorem normalize_order_mem (v : Option J) (h : ¬ _normalize_order v = lit "invalid") :
    _normalize_order v ∈ orderEnum := by
  simp only [_normalize_order] at h ⊢
  split at h
  · rename_i hcase
    rcases hcase with h1 | h1 | h1 | h1 | h1 <;> simp [h1, orderEnum]
  · exact absurd rfl h

theorem hold_inv (r : Str) : DirectiveInvariant (_build_hold_directive r) := by
  refine ⟨by simp [_build_hold_directive, orderEnum], by simp [_build_hold_directive],
    by simp [_build_hold_directive], by simp [_build_hold_directive],
    by simp [_build_hold_directive], ?_⟩
  simp only [_build_hold_directive]
  by_cases h : r.isEmpty
  · simp [h]; decide
  · simpa [h] using (by simpa using h : ¬ r = [])


theorem orDefault_ne_nil (r1 : Str) :
    ¬ (if r1.isEmpty then DEFAULT_HOLD_REASONING else r1) = [] := by
  split <;> rename_i hr
  · decide
  · intro hnil
    rw [hnil] at hr
    simp at hr

theorem coerceBuild_resolved {kvs : List (Str × J)}
    (hOrd : ¬ _normalize_order (coerceOrderToken (J.obj kvs)) = lit "invalid") :
    DirectiveInvariant (coerceBuild kvs) :=
  ⟨normalize_order_mem _ hOrd, tni_nonneg _, tni_nonneg _, tni_nonneg _,
    tni_nonneg _, orDefault_ne_nil _⟩

theorem coerce_inv {p : J} {d : Directive} (h : _coerce_directive p = some d) :
    DirectiveInvariant d := by
  rcases p with _ | _ | _ | _ | _ | kvs <;> simp only [_coerce_directive] at h
  · exact absurd h (by simp)
  · exact absurd h (by simp)
  · exact absurd h (by simp)
  · exact absurd h (by simp)
  · exact absurd h (by simp)
  · split at h
    · exact absurd h (by simp)
    · split at h
      · exact absurd h (by simp)
      · rename_i hOrd
        rw [Option.some_inj] at h
        subst h
        exact coerceBuild_resolved hOrd

theorem loose_inv {raw : Str} {d : Directive} (h : _extract_from_loose_text raw = some d) :
    DirectiveInvariant d := by
  unfold _extract_from_loose_text at h
  rcases hcap : looseOrderCapture raw with _ | tok <;> rw [hcap] at h
  · exact absurd h (by simp)
  · simp only [Option.some_inj] at h
    subst h
    refine ⟨?_, ?_, ?_, ?_, ?_, ?_⟩
    · dsimp only
      split <;> rename_i h0
      · decide
      · exact normalize_order_mem _ h0
    · dsimp only
      rcases hs : reSearch [lit "squad_size", lit "squadsize"] digitsCapture raw with _ | cap <;>
        simp only [hs]
      · simp [_build_hold_directive]
      · exact tni_nonneg _
    · dsimp only
      rcases hs : reSearch [lit "count"] digitsCapture raw with _ | cap <;> simp only [hs]
      · simp [_build_hold_directive]
      · exact tni_nonneg _
    · dsimp only
      rcases hs : reSearch [lit "decoy_size", lit "decoysize"] digitsCapture raw with _ | cap <;>
        simp only [hs]
      · simp [_build_hold_directive]
      · exact tni_nonneg _
    · dsimp only
      rcases hs : reSearch [lit "real_size", lit "realsize"] digitsCapture raw with _ | cap <;>
        simp only [hs]
      · simp [_build_hold_directive]
      · exact tni_nonneg _
    · dsimp only
      rcases hs : reSearch [lit "reasoning"] quotedCapture raw with _ | cap <;> simp only [hs]
      · simp [_build_hold_directive]
        decide
      · split <;> rename_i hre
        · simp [_build_hold_directive]
          decide
        · intro hnil
          rw [hnil] at hre
          simp at hre

theorem normalize_shape (raw : Str) :
    ∃ d : Directive, (_normalize_swarm_directive raw).1 = dirToJson d ∧ DirectiveInvariant d := by
  unfold _normalize_swarm_directive
  rcases hp : _extract_json_payload raw with _ | payload <;> simp only [hp]
  · rcases hl : _extract_from_loose_text raw with _ | loose <;> simp only [hl]
    · exact ⟨_build_hold_directive DEFAULT_HOLD_REASONING, rfl, hold_inv _⟩
    · exact ⟨loose, rfl, loose_inv hl⟩
  · rcases hj : jsonLoads payload with _ | parsed <;> simp only [hj]
    · rcases hl : _extract_from_loose_text raw with _ | loose <;> simp only [hl]
      · exact ⟨_build_hold_directive DEFAULT_HOLD_REASONING, rfl, hold_inv _⟩
      · exact ⟨loose, rfl, loose_inv hl⟩
    · rcases hc : _coerce_directive parsed with _ | dd <;> simp only [hc]
      · exact ⟨_build_hold_directive DEFAULT_HOLD_REASONING, rfl, hold_inv _⟩
      · exact ⟨dd, rfl, coerce_inv hc⟩

theorem selectLoop_eq (cs : List Candidate) :
    ∀ br fi : Option Outcome,
      selectLoop cs br fi =
        (match (cs.map outcomeOfCandidate).find? (fun o => o.model_valid) with
         | some o => o
         | none =>
           match br <|> (cs.map outcomeOfCandidate).find? (fun o => isRecoverableStatus o.status) with
           | some o => o
           | none => (fi <|> (cs.map outcomeOfCandidate).head?).getD noCandidatesOutcome) := by
  induction cs with
  | nil =>
    intro br fi
    rcases br with _ | b <;> rcases fi with _ | f <;> simp [selectLoop]
  | cons c rest ih =>
    intro br fi
    by_cases hv : (outcomeOfCandidate c).model_valid
    · simp [selectLoop, hv, List.find?_cons_of_pos]
    · rw [show selectLoop (c :: rest) br fi =
          selectLoop rest
            (if isRecoverableStatus (outcomeOfCandidate c).status ∧ br = none
             then some (outcomeOfCandidate c) else br)
            (if fi = none then some (outcomeOfCandidate c) else fi) from by
        simp [selectLoop, hv]]
      rw [ih]
      simp only [List.map_cons, List.find?_cons_of_neg _ (by simpa using hv)]
      rcases br with _ | b
      · rcases fi with _ | f
        · by_cases hr : isRecoverableStatus (outcomeOfCandidate c).status
          · simp [hr, List.find?_cons_of_pos]
          · simp [hr, List.find?_cons_of_neg _ (by simpa using hr)]
        · by_cases hr : isRecoverableStatus (outcomeOfCandidate c).status
          · simp [hr, List.find?_cons_of_pos]
          · simp [hr, List.find?_cons_of_neg _ (by simpa using hr)]
      · rcases fi with _ | f <;> simp

set_option maxRecDepth 100000

set_option maxHeartbeats 1000000

/-! ## Claim theorems -/

/-- C6: for every candidate list produced by one oracle call, the ranker
returns the outcome of the first candidate (in extraction order) whose
normalization is valid; if no candidate is valid it returns the first
outcome with status `loose_tokens` or `json_decode_loose_tokens`, else the
first outcome overall; and for the empty candidate list it returns a
synthetic outcome with status `no_candidates` wrapping the canonical hold
directive. -/
theorem c6_ranker_rule (candidates : List Candidate) :
    _select_candidate_outcome candidates = rankerRuleSpec candidates := by
  unfold _select_candidate_outcome rankerRuleSpec
  rw [selectLoop_eq]
  simp only [Option.none_orElse]

/-- C10: for every input text, the normalized_json returned by
`_normalize_swarm_directive` is the compact serialization of a directive
object carrying exactly the twelve directive keys, with an order from the
closed enumeration, non-negative size/count fields, and a nonempty
reasoning string. -/
theorem c10_normalized_shape_invariant (raw : Str) :
    ∃ d : Directive, (_normalize_swarm_directive raw).1 = dirToJson d ∧
      jTopKeys (dirToJ d) = directiveKeysList ∧ DirectiveInvariant d := by
  obtain ⟨d, hd, hinv⟩ := normalize_shape raw
  exact ⟨d, hd, rfl, hinv⟩

/-- C9: for every configured retry count, the attempt sequence contains
exactly one attempt when the clamped count `max(0, min(1, n))` is zero and
exactly two attempts otherwise, so it never exceeds two oracle attempts. -/
theorem c9_bounded_attempts (settings : Settings) (model_name : Option Str)
    (temperature : Rat) :
    (buildAttempts settings model_name temperature).length =
      (if max 0 (min 1 settings.swarm_retry_count) = 0 then 1 else 2) ∧
    (buildAttempts settings model_name temperature).length ≤ 2 := by
  constructor
  · simp only [buildAttempts]
    by_cases h : (0 : Int) < max 0 (min 1 settings.swarm_retry_count)
    · simp only [h, if_true]
      rw [if_neg (by omega)]
      simp
    · simp only [h, if_false]
      rw [if_pos (by omega)]
      simp
  · simp only [buildAttempts]
    split <;> simp

/-- C1 counterexample: the payload `{"order":"reinforce","reasoning":"x"}`
parses and coerces with recognized order `reinforce` but omits the required
`target_zone`/`squad_size` fields, so its actionability check fails; the
normalizer nevertheless returns `is_valid=true`, `status=model_valid` — the
per-order required-field rules are not applied on the parsed-JSON path,
contradicting the claim. -/
theorem c1_counterexample :
    _normalize_swarm_directive (lit "\x7b\"order\":\"reinforce\",\"reasoning\":\"x\"\x7d") =
      (dirToJson
        { order := lit "reinforce", target_zone := [], squad_size := 0, priority := []
          from_zone := [], to_zone := [], count := 0, decoy_zone := [], decoy_size := 0
          real_target_zone := [], real_size := 0, reasoning := lit "x" }, true,
        lit "model_valid") ∧
    _is_actionable_directive
      { order := lit "reinforce", target_zone := [], squad_size := 0, priority := []
        from_zone := [], to_zone := [], count := 0, decoy_zone := [], decoy_size := 0
        real_target_zone := [], real_size := 0, reasoning := lit "x" } = false := by
  constructor <;> decide

/-- C1 (amended): on the parsed-JSON path the normalizer grants
`is_valid=true`, `status=model_valid` upon successful coercion alone — the
per-order actionability rules are not consulted there — and when coercion
fails it returns the canonical hold fallback (not the partial directive)
with `is_valid=false`, `status=directive_shape_invalid`. -/
theorem c1_model_valid_from_coercion_alone :
    (∀ raw payload parsed d, _extract_json_payload raw = some payload →
      jsonLoads payload = some parsed → _coerce_directive parsed = some d →
      _normalize_swarm_directive raw = (dirToJson d, true, lit "model_valid")) ∧
    (∀ raw payload parsed, _extract_json_payload raw = some payload →
      jsonLoads payload = some parsed → _coerce_directive parsed = none →
      _normalize_swarm_directive raw = (holdJson, false, lit "directive_shape_invalid")) := by
  constructor
  · intro raw payload parsed d h1 h2 h3
    simp only [_normalize_swarm_directive, h1, h2, h3]
  · intro raw payload parsed h1 h2 h3
    simp only [_normalize_swarm_directive, h1, h2, h3]

/-- Witness for C1 (amended) at two concrete payloads: a feint directive
that coerces (hence `model_valid` despite empty zones) and a non-directive
object that fails coercion. -/
theorem c1_model_valid_witness :
    _normalize_swarm_directive (lit "\x7b\"order\":\"feint\",\"reasoning\":\"w\"\x7d") =
      (dirToJson
        { order := lit "feint", target_zone := [], squad_size := 0, priority := []
          from_zone := [], to_zone := [], count := 0, decoy_zone := [], decoy_size := 0
          real_target_zone := [], real_size := 0, reasoning := lit "w" }, true,
        lit "model_valid") ∧
    _normalize_swarm_directive (lit "\x7b\"order\":\"charge\"\x7d") =
      (holdJson, false, lit "directive_shape_invalid") :=
  ⟨c1_model_valid_from_coercion_alone.1
      (lit "\x7b\"order\":\"feint\",\"reasoning\":\"w\"\x7d")
      (lit "\x7b\"order\":\"feint\",\"reasoning\":\"w\"\x7d")
      (J.obj [(lit "order", .str (lit "feint")), (lit "reasoning", .str (lit "w"))]) _
      (by decide) (by rfl) (by decide),
   c1_model_valid_from_coercion_alone.2
      (lit "\x7b\"order\":\"charge\"\x7d")
      (lit "\x7b\"order\":\"charge\"\x7d")
      (J.obj [(lit "order", .str (lit "charge"))])
      (by decide) (by rfl) (by decide)⟩

/-- C3 counterexample: the loose-recovered text
`"order": "reinforce", "target_zone": "alpha", "squad_size": 5` has no JSON
object, recovers by regex, and every recovered field satisfies the
reinforce actionability rule — the outcome keeps status `loose_tokens` but
reports `is_valid=true`, contradicting the claim's `is_valid is false`. -/
theorem c3_counterexample :
    (_normalize_swarm_directive
      (lit "\"order\": \"reinforce\", \"target_zone\": \"alpha\", \"squad_size\": 5")).2.1 =
      true ∧
    (_normalize_swarm_directive
      (lit "\"order\": \"reinforce\", \"target_zone\": \"alpha\", \"squad_size\": 5")).2.2 =
      lit "loose_tokens" := by
  constructor <;> decide

/-- C3 (amended): loose-token recovery always reports status `loose_tokens`
(no JSON located) or `json_decode_loose_tokens` (located JSON failed to
parse) — never `model_valid` — while `is_valid` equals the per-order
actionability check of the recovered directive, so it can be true. -/
theorem c3_loose_recovery_status :
    (∀ raw d, _extract_json_payload raw = none → _extract_from_loose_text raw = some d →
      _normalize_swarm_directive raw =
        (dirToJson d, _is_actionable_directive d, lit "loose_tokens")) ∧
    (∀ raw payload d, _extract_json_payload raw = some payload → jsonLoads payload = none →
      _extract_from_loose_text raw = some d →
      _normalize_swarm_directive raw =
        (dirToJson d, _is_actionable_directive d, lit "json_decode_loose_tokens")) ∧
    ¬ lit "loose_tokens" = lit "model_valid" ∧
    ¬ lit "json_decode_loose_tokens" = lit "model_valid" := by
  refine ⟨?_, ?_, by decide, by decide⟩
  · intro raw d h1 h2
    simp only [_normalize_swarm_directive, h1, h2]
  · intro raw payload d h1 h2 h3
    simp only [_normalize_swarm_directive, h1, h2, h3]

/-- Witness for C3 (amended): a loose recovery with no JSON attempt and one
after a failed JSON parse (trailing comma). -/
theorem c3_loose_recovery_witness :
    _normalize_swarm_directive (lit "\"order\": \"hold\"") =
      (dirToJson (_build_hold_directive DEFAULT_HOLD_REASONING),
        _is_actionable_directive (_build_hold_directive DEFAULT_HOLD_REASONING),
        lit "loose_tokens") ∧
    _normalize_swarm_directive (lit "\x7b\"order\": \"hold\",\x7d") =
      (dirToJson (_build_hold_directive DEFAULT_HOLD_REASONING),
        _is_actionable_directive (_build_hold_directive DEFAULT_HOLD_REASONING),
        lit "json_decode_loose_tokens") :=
  ⟨c3_loose_recovery_status.1 (lit "\"order\": \"hold\"")
      (_build_hold_directive DEFAULT_HOLD_REASONING) (by decide) (by decide),
   c3_loose_recovery_status.2.1 (lit "\x7b\"order\": \"hold\",\x7d")
      (lit "\x7b\"order\": \"hold\",\x7d")
      (_build_hold_directive DEFAULT_HOLD_REASONING) (by decide) (by rfl) (by decide)⟩

/-- C8 counterexample: for the loose path input
`"order": "invade", "target_zone": "alpha"` the unrecognized order is
coerced to hold, the other recovered fields are kept (target_zone is
`alpha`, so the result differs from the canonical hold directive), and
`is_valid` is true — not the canonical hold with `is_valid=false` the claim
requires. -/
theorem c8_counterexample :
    _normalize_swarm_directive (lit "\"order\": \"invade\", \"target_zone\": \"alpha\"") =
      (dirToJson
        { order := lit "hold", target_zone := lit "alpha", squad_size := 0, priority := []
          from_zone := [], to_zone := [], count := 0, decoy_zone := [], decoy_size := 0
          real_target_zone := [], real_size := 0, reasoning := DEFAULT_HOLD_REASONING },
        true, lit "loose_tokens") ∧
    ¬ dirToJson
        { order := lit "hold", target_zone := lit "alpha", squad_size := 0, priority := []
          from_zone := [], to_zone := [], count := 0, decoy_zone := [], decoy_size := 0
          real_target_zone := [], real_size := 0, reasoning := DEFAULT_HOLD_REASONING } =
      holdJson := by
  constructor <;> decide

/-- Helper: a directive whose order field is `hold` always passes the
actionability check. -/
theorem actionable_of_hold (d : Directive) (h : d.order = lit "hold") :
    _is_actionable_directive d = true := by
  simp only [_is_actionable_directive]
  rw [h]
  rw [if_pos (by decide)]

/-- C8 (amended): an order token outside the closed enumeration is never
coerced to another order.  On the parsed-JSON path the normalizer yields
the canonical hold directive with `is_valid=false`,
`status=directive_shape_invalid`; on the loose-token path the order is
forced to `hold` (keeping the other regex-recovered fields), the status is
`loose_tokens`, and `is_valid` is true because a hold directive is always
actionable. -/
theorem c8_unrecognized_order :
    (∀ raw payload parsed, _extract_json_payload raw = some payload →
      jsonLoads payload = some parsed →
      _normalize_order (coerceOrderToken parsed) = lit "invalid" →
      _normalize_swarm_directive raw = (holdJson, false, lit "directive_shape_invalid")) ∧
    (∀ raw tok, _extract_json_payload raw = none →
      looseOrderCapture raw = some tok →
      _normalize_order (some (.str tok)) = lit "invalid" →
      ∃ d, _extract_from_loose_text raw = some d ∧ d.order = lit "hold" ∧
        _normalize_swarm_directive raw = (dirToJson d, true, lit "loose_tokens")) := by
  constructor
  · intro raw payload parsed h1 h2 h3
    have hc : _coerce_directive parsed = none := by
      rcases parsed with _ | _ | _ | _ | _ | kvs <;> simp only [_coerce_directive]
      split <;> rfl
    simp only [_normalize_swarm_directive, h1, h2, hc]
  · intro raw tok h1 h2 h3
    obtain ⟨d, hl⟩ : ∃ d, _extract_from_loose_text raw = some d := by
      unfold _extract_from_loose_text
      rw [h2]
      exact ⟨_, rfl⟩
    have hord : d.order = lit "hold" := by
      have hcopy := hl
      unfold _extract_from_loose_text at hcopy
      rw [h2] at hcopy
      simp only [Option.some_inj] at hcopy
      subst hcopy
      dsimp only
      rw [if_pos h3]
    have hact : _is_actionable_directive d = true := actionable_of_hold d hord
    refine ⟨d, hl, hord, ?_⟩
    simp only [_normalize_swarm_directive, h1, hl, hact]

/-- Witness for C8 (amended): the JSON payload `{"order":"invade"}` and the
loose text `"order": "invade"`, both carrying the unrecognized token
`invade`. -/
theorem c8_unrecognized_order_witness :
    _normalize_swarm_directive (lit "\x7b\"order\":\"invade\"\x7d") =
      (holdJson, false, lit "directive_shape_invalid") ∧
    ∃ d, _extract_from_loose_text (lit "\"order\": \"invade\"") = some d ∧
      d.order = lit "hold" ∧
      _normalize_swarm_directive (lit "\"order\": \"invade\"") =
        (dirToJson d, true, lit "loose_tokens") :=
  ⟨c8_unrecognized_order.1 (lit "\x7b\"order\":\"invade\"\x7d")
      (lit "\x7b\"order\":\"invade\"\x7d")
      (J.obj [(lit "order", .str (lit "invade"))]) (by decide) (by rfl) (by decide),
   c8_unrecognized_order.2 (lit "\"order\": \"invade\"") (lit "invade")
      (by decide) (by decide) (by decide)⟩

theorem dirToJson_ne_nil (d : Directive) : ¬ dirToJson d = [] := by
  simp [dirToJson, dirToJ, serJ]

theorem selectLoop_shaped (cs : List Candidate) :
    ∀ br fi : Option Outcome,
      (∀ o, br = some o → ∃ d, o.normalized_json = dirToJson d) →
      (∀ o, fi = some o → ∃ d, o.normalized_json = dirToJson d) →
      ∃ d, (selectLoop cs br fi).normalized_json = dirToJson d := by
  induction cs with
  | nil =>
    intro br fi hbr hfi
    rcases br with _ | b
    · rcases fi with _ | f
      · exact ⟨_build_hold_directive DEFAULT_HOLD_REASONING, rfl⟩
      · exact hfi f rfl
    · exact hbr b rfl
  | cons c rest ih =>
    intro br fi hbr hfi
    have hc : ∃ d, (outcomeOfCandidate c).normalized_json = dirToJson d := by
      obtain ⟨d, hd, _⟩ := normalize_shape c.text
      exact ⟨d, hd⟩
    by_cases hv : (outcomeOfCandidate c).model_valid
    · simpa [selectLoop, hv] using hc
    · rw [show selectLoop (c :: rest) br fi =
          selectLoop rest
            (if isRecoverableStatus (outcomeOfCandidate c).status ∧ br = none
             then some (outcomeOfCandidate c) else br)
            (if fi = none then some (outcomeOfCandidate c) else fi) from by
        simp [selectLoop, hv]]
      apply ih
      · intro o ho
        split at ho
        · rw [Option.some_inj] at ho
          subst ho
          exact hc
        · exact hbr o ho
      · intro o ho
        split at ho
        · rw [Option.some_inj] at ho
          subst ho
          exact hc
        · exact hfi o ho

theorem select_shaped (cs : List Candidate) :
    ∃ d, (_select_candidate_outcome cs).normalized_json = dirToJson d :=
  selectLoop_shaped cs none none (by intro o h; cases h) (by intro o h; cases h)

theorem strategizeLoop_shape (oracle : Oracle) (sel : Str) (as0 : List AttemptSpec) :
    ∀ ov idx trace,
      (∃ d, (strategizeLoop oracle sel as0 ov idx trace).1.raw_text = dirToJson d) ∧
      (strategizeLoop oracle sel as0 ov idx trace).1.provider = lit "vertex_gemini" := by
  induction as0 with
  | nil =>
    intro ov idx trace
    exact ⟨⟨_build_hold_directive DEFAULT_HOLD_REASONING, rfl⟩, rfl⟩
  | cons a rest ih =>
    intro ov idx trace
    simp only [strategizeLoop]
    rcases invokeAttempt oracle idx with _ | resp
    · exact ih none (idx + 1) _
    · by_cases hv :
        (_select_candidate_outcome (_extract_response_candidates resp)).model_valid
      · constructor
        · simpa [hv] using select_shaped (_extract_response_candidates resp)
        · simp [hv]
      · simpa [hv] using
          ih (rescueOverride (_select_candidate_outcome (_extract_response_candidates resp))
            (_extract_finish_reasons resp) rest) (idx + 1) _

theorem strategizeLoop_fallback (oracle : Oracle) (sel : Str) (as0 : List AttemptSpec) :
    ∀ (ov : Option AttemptSpec) (idx : Nat) (trace : List ExecRec),
      (∀ i, idx ≤ i → i < idx + as0.length → attemptValid oracle i = false) →
      (strategizeLoop oracle sel as0 ov idx trace).1.raw_text = holdJson ∧
      (strategizeLoop oracle sel as0 ov idx trace).1.model =
        (((strategizeLoop oracle sel as0 ov idx trace).2.getLast?).map ExecRec.model).getD sel := by
  induction as0 with
  | nil =>
    intro ov idx trace _
    exact ⟨rfl, rfl⟩
  | cons a rest ih =>
    intro ov idx trace h
    have hidx : attemptValid oracle idx = false :=
      h idx le_rfl (by simp only [List.length_cons]; omega)
    simp only [strategizeLoop]
    rcases hresp : invokeAttempt oracle idx with _ | resp
    · simp only []
      exact ih none (idx + 1) _
        (fun i h1 h2 => h i (by omega) (by simp only [List.length_cons]; omega))
    · have hv : (_select_candidate_outcome (_extract_response_candidates resp)).model_valid
          = false := by
        have hcopy := hidx
        unfold attemptValid attemptOutcome at hcopy
        rw [hresp] at hcopy
        simpa using hcopy
      simp only [hv, Bool.false_eq_true, if_false]
      exact ih _ (idx + 1) _
        (fun i h1 h2 => h i (by omega) (by simp only [List.length_cons]; omega))

/-- C2: for every oracle behaviour — every response shape, accessor raise
pattern, and invocation exception — `strategize_swarm` returns normally (it
is a total function of the modelled oracle) with a `raw_text` that is the
compact serialization of a directive object (never empty) and provider
`vertex_gemini`; and whenever no attempt produces a valid directive, the
returned `raw_text` is the canonical hold payload with the fixed default
reasoning and the returned model identifier is the one the last executed
attempt used. -/
theorem c2_pipeline_guarantee (settings : Settings) (oracle : Oracle)
    (model_name : Option Str) (temperature : Rat) :
    (∃ d, (strategize_swarm settings oracle model_name temperature).1.raw_text = dirToJson d) ∧
    ¬ (strategize_swarm settings oracle model_name temperature).1.raw_text = [] ∧
    (strategize_swarm settings oracle model_name temperature).1.provider = lit "vertex_gemini" ∧
    ((∀ i, 1 ≤ i → i ≤ (buildAttempts settings model_name temperature).length →
        attemptValid oracle i = false) →
      (strategize_swarm settings oracle model_name temperature).1.raw_text = holdJson ∧
      (strategize_swarm settings oracle model_name temperature).1.model =
        (((strategize_swarm settings oracle model_name temperature).2.getLast?).map
          ExecRec.model).getD (selectedModelOf settings model_name)) := by
  unfold strategize_swarm
  obtain ⟨⟨d, hd⟩, hprov⟩ :=
    strategizeLoop_shape oracle (selectedModelOf settings model_name)
      (buildAttempts settings model_name temperature) none 1 []
  refine ⟨⟨d, hd⟩, ?_, hprov, ?_⟩
  · rw [hd]
    exact dirToJson_ne_nil d
  · intro h
    exact strategizeLoop_fallback oracle (selectedModelOf settings model_name)
      (buildAttempts settings model_name temperature) none 1 []
      (fun i h1 h2 => h i h1 (by omega))

/-- Witness for C2 at an oracle whose every invocation raises: both
attempts fail, the result is the canonical hold payload, and the model is
the retry attempt's. -/
theorem c2_pipeline_witness :
    (strategize_swarm c2wSettings c2wOracle none 0).1.raw_text = holdJson ∧
    (strategize_swarm c2wSettings c2wOracle none 0).1.model =
      (((strategize_swarm c2wSettings c2wOracle none 0).2.getLast?).map
        ExecRec.model).getD (selectedModelOf c2wSettings none) :=
  (c2_pipeline_guarantee c2wSettings c2wOracle none 0).2.2.2 (fun _ _ _ => rfl)

theorem strategizeLoop_single_trace (oracle : Oracle) (sel : Str) (a : AttemptSpec)
    (ov : Option AttemptSpec) (idx : Nat) (trace : List ExecRec) :
    (strategizeLoop oracle sel [a] ov idx trace).2 =
      trace ++ [⟨(ov.getD a).name, pyOrStr (pystrip (ov.getD a).model) sel,
        clampTemp (ov.getD a).temperature⟩] := by
  simp only [strategizeLoop]
  rcases invokeAttempt oracle idx with _ | resp
  · simp [strategizeLoop]
  · by_cases hv :
      (_select_candidate_outcome (_extract_response_candidates resp)).model_valid <;>
      simp [hv, strategizeLoop]

theorem strategizeLoop_cons (oracle : Oracle) (sel : Str) (a : AttemptSpec)
    (rest : List AttemptSpec) (ov : Option AttemptSpec) (idx : Nat) (trace : List ExecRec) :
    strategizeLoop oracle sel (a :: rest) ov idx trace =
      (match invokeAttempt oracle idx with
       | none => strategizeLoop oracle sel rest none (idx + 1)
           (trace ++ [⟨(ov.getD a).name, pyOrStr (pystrip (ov.getD a).model) sel,
             clampTemp (ov.getD a).temperature⟩])
       | some response =>
         if (_select_candidate_outcome
             (_extract_response_candidates response)).model_valid then
           ({ raw_text := (_select_candidate_outcome
                (_extract_response_candidates response)).normalized_json,
              model := pyOrStr (pystrip (ov.getD a).model) sel,
              provider := lit "vertex_gemini" },
            trace ++ [⟨(ov.getD a).name, pyOrStr (pystrip (ov.getD a).model) sel,
              clampTemp (ov.getD a).temperature⟩])
         else
           strategizeLoop oracle sel rest
             (rescueOverride (_select_candidate_outcome (_extract_response_candidates response))
               (_extract_finish_reasons response) rest) (idx + 1)
             (trace ++ [⟨(ov.getD a).name, pyOrStr (pystrip (ov.getD a).model) sel,
               clampTemp (ov.getD a).temperature⟩])) := rfl

/-- C5 (amended): after an attempt whose outcome status is `no_json_object`
with a `MAX_TOKENS` finish reason in the diagnostics, the retry attempt
executes with its model overridden to the designated non-thinking rescue
model exactly when the configured retry model matches the thinking-model
name-prefix heuristic, and with its configured model (resolved as the
source does, empty falling back to the selected model) otherwise; its
temperature is 0 in both cases. -/
theorem c5_rescue_heuristic (settings : Settings) (oracle : Oracle) (model_name : Option Str)
    (temperature : Rat) (o : Outcome) (fr : Str)
    (hretry : (0 : Int) < max 0 (min 1 settings.swarm_retry_count))
    (h1 : attemptOutcome oracle 1 = some (o, fr))
    (hvalid : o.model_valid = false)
    (hstat : o.status = lit "no_json_object")
    (hmax : containsSub (upperStr fr) (lit "MAX_TOKENS") = true) :
    (strategize_swarm settings oracle model_name temperature).2.get? 1 =
      some ⟨lit "retry",
        if _is_likely_thinking_model
            (pyOrStr settings.swarm_retry_model NON_THINKING_RESCUE_MODEL) then
          NON_THINKING_RESCUE_MODEL
        else
          pyOrStr (pystrip (pyOrStr settings.swarm_retry_model NON_THINKING_RESCUE_MODEL))
            (selectedModelOf settings model_name),
        0⟩ := by
  have hpo : pyOrStr (pystrip NON_THINKING_RESCUE_MODEL) (selectedModelOf settings model_name) =
      NON_THINKING_RESCUE_MODEL := by
    rw [show pystrip NON_THINKING_RESCUE_MODEL = NON_THINKING_RESCUE_MODEL from by decide]
    simp [pyOrStr, show NON_THINKING_RESCUE_MODEL.isEmpty = false from by decide]
  have hclamp : clampTemp 0 = 0 := by
    norm_num [clampTemp]
  have hsf : _should_force_non_thinking_rescue o fr = true := by
    rw [_should_force_non_thinking_rescue, hstat, hmax]
    decide
  unfold strategize_swarm
  simp only [buildAttempts]
  rw [if_pos hretry]
  unfold attemptOutcome at h1
  rcases hInv : invokeAttempt oracle 1 with _ | resp <;> rw [hInv] at h1
  · exact absurd h1 (by simp)
  · simp only [Option.map_some', Option.some_inj] at h1
    have ho : _select_candidate_outcome (_extract_response_candidates resp) = o :=
      congrArg Prod.fst h1
    have hfr : _extract_finish_reasons resp = fr := congrArg Prod.snd h1
    rw [strategizeLoop_cons, hInv]
    simp only [ho, hfr, hvalid, Bool.false_eq_true, if_false]
    by_cases hth : _is_likely_thinking_model
        (pyOrStr settings.swarm_retry_model NON_THINKING_RESCUE_MODEL) = true
    · have hov : rescueOverride o fr
          [⟨lit "retry", pyOrStr settings.swarm_retry_model NON_THINKING_RESCUE_MODEL, 0⟩] =
          some ⟨lit "retry", NON_THINKING_RESCUE_MODEL, 0⟩ := by
        simp only [rescueOverride]
        rw [if_pos (by simp [hsf, hth])]
      rw [hov, strategizeLoop_single_trace, if_pos hth]
      simp [hpo, hclamp]
    · have hov : rescueOverride o fr
          [⟨lit "retry", pyOrStr settings.swarm_retry_model NON_THINKING_RESCUE_MODEL, 0⟩] =
          none := by
        simp only [rescueOverride]
        rw [if_neg (by simp [hth])]
      rw [hov, strategizeLoop_single_trace, if_neg hth]
      simp [hclamp]

/-- C5 counterexample: a primary attempt with status `no_json_object` and a
`MAX_TOKENS` finish reason — the claim's premise — followed by a configured
retry model outside the thinking-model class: the retry attempt executes
with the configured `gemini-1.5-flash`, not the designated rescue model, so
the override is not unconditional. -/
theorem c5_counterexample :
    (attemptOutcome c5Oracle 1).map
      (fun p => (p.1.status, p.1.model_valid,
        containsSub (upperStr p.2) (lit "MAX_TOKENS"))) =
      some (lit "no_json_object", false, true) ∧
    (strategize_swarm c5cexSettings c5Oracle none 0).2.get? 1 =
      some ⟨lit "retry", lit "gemini-1.5-flash", 0⟩ ∧
    ¬ (lit "gemini-1.5-flash" : Str) = NON_THINKING_RESCUE_MODEL := by
  refine ⟨by decide, by decide, by decide⟩

/-- Witness for C5 (amended), exercising both branches of the guard: with a
thinking-class configured retry model the retry attempt is forced to the
rescue model at temperature 0, and with a non-thinking configured retry
model the retry attempt keeps its configured model at temperature 0. -/
theorem c5_rescue_witness :
    (strategize_swarm c5wSettings c5Oracle none 0).2.get? 1 =
      some ⟨lit "retry", NON_THINKING_RESCUE_MODEL, 0⟩ ∧
    (strategize_swarm c5cexSettings c5Oracle none 0).2.get? 1 =
      some ⟨lit "retry", lit "gemini-1.5-flash", 0⟩ :=
  ⟨(c5_rescue_heuristic c5wSettings c5Oracle none 0
      (_select_candidate_outcome (_extract_response_candidates c5Response))
      (_extract_finish_reasons c5Response)
      (by decide) rfl (by decide) (by decide) (by decide)).trans (by decide),
   (c5_rescue_heuristic c5cexSettings c5Oracle none 0
      (_select_candidate_outcome (_extract_response_candidates c5Response))
      (_extract_finish_reasons c5Response)
      (by decide) rfl (by decide) (by decide) (by decide)).trans (by decide)⟩

theorem appendItems_append (st : List Candidate × List Str) (a b : List (Str × Str)) :
    appendItems st (a ++ b) = appendItems (appendItems st a) b := by
  simp [appendItems, List.foldl_append]

theorem partLoop_spec (i : Nat) (ps : List (Nat × GPart)) :
    ∀ (pts alls : List (Nat × Str)) (st : List Candidate × List Str),
      partLoop i ps (pts, alls, st) =
        (pts ++ partTextsSpec ps, alls ++ allTextsSpec ps, appendItems st (fcItems i ps)) := by
  induction ps with
  | nil =>
    intro pts alls st
    simp [partLoop, partTextsSpec, allTextsSpec, fcItems, appendItems]
  | cons jp rest ih =>
    intro pts alls st
    rcases jp with ⟨j, part⟩
    rcases hct : cleanedText part with _ | c <;>
      rcases hfc : part.fcArgs with _ | args <;>
        simp only [partLoop, hct, hfc, ih, partTextsSpec, allTextsSpec, fcItems,
          List.filterMap_cons, appendItems, List.foldl_cons, Option.map_none',
          Option.map_some'] <;>
      (by_cases hth : part.thought <;> simp [hth, List.append_assoc])

theorem candLoopStep_spec (i : Nat) (cand : GCand) (st : List Candidate × List Str) :
    candLoopStep i cand st = appendItems st (candBlockSpec i cand) := by
  unfold candLoopStep candBlockSpec
  by_cases hp : cand.parts.isEmpty
  · simp [hp, appendItems]
  · simp only [hp, if_false, Bool.false_eq_true]
    rw [partLoop_spec]
    simp only [List.nil_append]
    rw [appendItems_append, appendItems_append]
    by_cases h2 : (partTextsSpec cand.parts.enum).isEmpty <;>
      by_cases h3 : (allTextsSpec cand.parts.enum).isEmpty <;>
        simp only [h2, h3, if_true, if_false, Bool.false_eq_true] <;>
    simp [appendItems, List.foldl_map]

theorem candsFold_spec (l : List (Nat × GCand)) :
    ∀ st : List Candidate × List Str,
      l.foldl (fun st ic => candLoopStep ic.1 ic.2 st) st =
        appendItems st ((l.map (fun ic => candBlockSpec ic.1 ic.2)).flatten) := by
  induction l with
  | nil => intro st; simp [appendItems]
  | cons a rest ih =>
    intro st
    simp only [List.foldl_cons, List.map_cons, List.flatten_cons]
    rw [ih, candLoopStep_spec, appendItems_append]

/-- C4 (amended): the extractor's output is exactly the trim-and-dedup fold
over the emission-ordered item list: the convenience text accessor, the
parsed accessor, then per response-candidate the function-call argument
payloads (in part order), the merged non-reasoning text, the individual
non-reasoning part texts, and finally the merged all-parts text — the only
candidate that can contain reasoning-flagged content, emitted last in its
block but present even when non-reasoning candidates exist. -/
theorem c4_extraction_characterization (response : GResponse) :
    _extract_response_candidates response = dedupAppend (rawItemsSpec response) := by
  unfold _extract_response_candidates rawItemsSpec dedupAppend
  rw [appendItems_append, appendItems_append]
  rcases response with ⟨ta, pa, ca⟩
  rcases ta with _ | t
  · rcases pa with _ | p
    · rcases ca with _ | cands
      · rfl
      · simp only []
        rw [candsFold_spec]
        rfl
    · rcases p with _ | p
      · rcases ca with _ | cands
        · rfl
        · simp only []
          rw [candsFold_spec]
          rfl
      · rcases p with _ | _ | _ | _ | _ | _ <;>
          rcases ca with _ | cands <;>
            simp only [appendItems, List.foldl_cons, List.foldl_nil] <;>
          rw [candsFold_spec] <;> rfl
  · rcases t with _ | t
    · rcases pa with _ | p
      · rcases ca with _ | cands
        · rfl
        · simp only []
          rw [candsFold_spec]
          rfl
      · rcases p with _ | p
        · rcases ca with _ | cands
          · rfl
          · simp only []
            rw [candsFold_spec]
            rfl
        · rcases p with _ | _ | _ | _ | _ | _ <;>
            rcases ca with _ | cands <;>
              simp only [appendItems, List.foldl_cons, List.foldl_nil] <;>
            rw [candsFold_spec] <;> rfl
    · by_cases ht : t.isEmpty <;>
        rcases pa with _ | p
      · rcases ca with _ | cands
        · simp [ht, appendItems]
        · simp only [ht, if_true]
          rw [candsFold_spec]
          simp [appendItems]
      · rcases p with _ | p
        · rcases ca with _ | cands
          · simp [ht, appendItems]
          · simp only [ht, if_true]
            rw [candsFold_spec]
            simp [appendItems]
        · rcases p with _ | _ | _ | _ | _ | _ <;>
            rcases ca with _ | cands <;>
              simp only [ht, if_true, appendItems, List.foldl_cons, List.foldl_nil] <;>
            (try rw [candsFold_spec]) <;> rfl
      · rcases ca with _ | cands
        · simp [ht, appendItems]
        · simp only [ht, if_false]
          rw [candsFold_spec]
          simp [appendItems]
      · rcases p with _ | p
        · rcases ca with _ | cands
          · simp [ht, appendItems]
          · simp only [ht, if_false]
            rw [candsFold_spec]
            simp [appendItems]
        · rcases p with _ | _ | _ | _ | _ | _ <;>
            rcases ca with _ | cands <;>
              simp only [ht, if_false, appendItems, List.foldl_cons, List.foldl_nil] <;>
            (try rw [candsFold_spec]) <;> rfl

/-- C4 counterexample: on a response whose single response-candidate holds
parts `A` (plain), `T` (reasoning-flagged), `B` (plain) and a
function-call payload, the extractor emits the function-call candidate
first, the merged text before the per-part texts, and an `ATB` candidate
containing the reasoning text `T` even though non-reasoning candidates
exist — contradicting both the claimed priority order (per-part before
merged before function-call) and the claimed reasoning-text exclusion. -/
theorem c4_counterexample :
    _extract_response_candidates c4cexResponse =
      [ ⟨lit "candidate[0].part[3].function_call.args", lit "\x7b\"k\":1\x7d"⟩
      , ⟨lit "candidate[0].parts_merged", lit "AB"⟩
      , ⟨lit "candidate[0].part[0]", lit "A"⟩
      , ⟨lit "candidate[0].part[2]", lit "B"⟩
      , ⟨lit "candidate[0].all_parts_merged", lit "ATB"⟩ ] ∧
    containsSub (lit "ATB") (lit "T") = true ∧
    containsSub (lit "AB") (lit "T") = false := by
  refine ⟨by decide, by decide, by decide⟩

theorem trimLeft_cons {c : Char} (t : Str) (h : pyWs c = false) :
    trimLeft (c :: t) = c :: t := by
  simp [trimLeft, List.dropWhile_cons, h]

theorem trimRight_append_last {x : Str} {d : Char} (h : pyWs d = false) :
    trimRight (x ++ [d]) = x ++ [d] := by
  simp [trimRight, List.reverse_append, List.dropWhile_cons, h]

theorem trimRight_append_ws {x : Str} {w : Char} (h : pyWs w = true) :
    trimRight (x ++ [w]) = trimRight x := by
  simp [trimRight, List.reverse_append, List.dropWhile_cons, h]

theorem pystrip_closed {mid : Str} {c d : Char} (hc : pyWs c = false) (hd : pyWs d = false) :
    pystrip (c :: (mid ++ [d])) = c :: (mid ++ [d]) := by
  rw [pystrip, trimLeft_cons _ hc, show c :: (mid ++ [d]) = (c :: mid) ++ [d] from rfl,
    trimRight_append_last hd]

theorem brace_decomp {s : Str} (h1 : startsWithS s [lbr] = true)
    (h2 : endsWithS s [rbr] = true) : ∃ mid, s = lbr :: (mid ++ [rbr]) := by
  rw [startsWithS, List.isPrefixOf_iff_prefix] at h1
  rw [endsWithS, List.isSuffixOf_iff_suffix] at h2
  obtain ⟨u, hu⟩ := h2
  rcases u with _ | ⟨a, u'⟩
  · exfalso
    rw [← hu] at h1
    obtain ⟨t, ht⟩ := h1
    simp at ht
    exact absurd ht.1 (by decide)
  · obtain ⟨t, ht⟩ := h1
    have ha : a = lbr := by
      rw [← hu] at ht
      simpa using congrArg (fun l => l.head?) ht.symm
    refine ⟨u', ?_⟩
    rw [← hu, ha]
    simp

theorem strFind_nl {pre : Str} (rest : Str) (h : '\n' ∉ pre) :
    strFind (lit "\n") (pre ++ '\n' :: rest) = some pre.length := by
  induction pre with
  | nil => simp [strFind, lit, List.isPrefixOf]
  | cons p pre' ih =>
    simp only [List.mem_cons, not_or] at h
    have hne : (('\n' : Char) == p) = false := by
      simpa using h.1
    have ih' : strFind ['\n'] (pre' ++ '\n' :: rest) = some pre'.length := ih h.2
    simp [strFind, lit, List.isPrefixOf, hne, ih']

theorem containsSub_cons (c : Char) (t pat : Str) :
    containsSub (c :: t) pat =
      (List.isPrefixOf pat (c :: t) || containsSub t pat) := by
  simp only [containsSub, strFind]
  by_cases hp : List.isPrefixOf pat (c :: t) <;> simp [hp, Option.isSome_map]

theorem strRFind_fence {s : Str} (h : containsSub s [bq, bq, bq] = false) :
    strRFind [bq, bq, bq] (s ++ '\n' :: [bq, bq, bq]) = some (s.length + 1) := by
  induction s with
  | nil => decide
  | cons c s' ih =>
    rw [containsSub_cons] at h
    simp only [Bool.or_eq_false_iff] at h
    simp [strRFind, ih h.2]

theorem mem_trimLeft {a : Char} {s : Str} (h : a ∈ trimLeft s) : a ∈ s :=
  (List.dropWhile_sublist pyWs).mem h

theorem mem_trimRight {a : Char} {s : Str} (h : a ∈ trimRight s) : a ∈ s := by
  rw [trimRight, List.mem_reverse] at h
  simpa using (List.dropWhile_sublist pyWs).mem h

theorem mem_pystrip {a : Char} {s : Str} (h : a ∈ pystrip s) : a ∈ s :=
  mem_trimLeft (mem_trimRight h)

theorem mem_defence {a : Char} {s : Str} (h : a ∈ defence s) : a ∈ s := by
  unfold defence at h
  split at h
  · rcases hf : strFind (lit "\n") s with _ | i <;> simp only [hf] at h
    · rcases hr : strRFind [bq, bq, bq] s with _ | j <;> simp only [hr] at h
      · exact h
      · exact (List.take_sublist _ _).mem (mem_pystrip h)
    · rcases hr : strRFind [bq, bq, bq] (s.drop (i + 1)) with _ | j <;> simp only [hr] at h
      · exact (List.drop_sublist _ _).mem h
      · exact (List.drop_sublist _ _).mem
          ((List.take_sublist _ _).mem (mem_pystrip h))
  · exact h

theorem startsWith_lbr_false {t : Str} (h : lbr ∉ t) : startsWithS t [lbr] = false := by
  rcases t with _ | ⟨c, r⟩
  · rfl
  · simp only [List.mem_cons, not_or] at h
    simp [startsWithS, List.isPrefixOf]
    intro he
    exact absurd he h.1

theorem strFind_single_none {c : Char} {t : Str} (h : c ∉ t) : strFind [c] t = none := by
  induction t with
  | nil => rfl
  | cons x r ih =>
    simp only [List.mem_cons, not_or] at h
    have hne : (c == x) = false := by simpa using h.1
    simp [strFind, List.isPrefixOf, hne, ih h.2]

theorem extract_direct {raw : Str} (h0 : ¬ raw = [])
    (h1 : startsWithS (pystrip raw) [lbr] = true)
    (h2 : endsWithS (pystrip raw) [rbr] = true) :
    _extract_json_payload raw = some (pystrip raw) := by
  have hne : raw.isEmpty = false := by
    rcases raw with _ | ⟨c, t⟩
    · exact absurd rfl h0
    · rfl
  obtain ⟨mid, hm⟩ := brace_decomp h1 h2
  unfold _extract_json_payload
  rw [if_neg (by simp [hne])]
  rw [show defence (pystrip raw) = pystrip raw from by
    unfold defence
    rw [if_neg ?_]
    rw [hm]
    simp [startsWithS, List.isPrefixOf]
    intro he
    exact absurd he (by decide)]
  rw [if_pos (by rw [h1, h2]; rfl)]

theorem extract_fallback {raw : Str} (h0 : ¬ raw = [])
    (hstrip : pystrip raw = raw)
    (hfence : startsWithS raw [bq, bq, bq] = false)
    (hfast : (startsWithS raw [lbr] && endsWithS raw [rbr]) = false) :
    _extract_json_payload raw =
      (match strFind [lbr] raw with
       | none => none
       | some start => braceScan (raw.drop start) 0 []) := by
  have hne : raw.isEmpty = false := by
    rcases raw with _ | ⟨c, t⟩
    · exact absurd rfl h0
    · rfl
  unfold _extract_json_payload
  rw [if_neg (by simp [hne])]
  rw [hstrip]
  rw [show defence raw = raw from by
    unfold defence
    rw [if_neg (by simp [hfence])]]
  rw [if_neg (by simp [hfast])]

theorem extract_no_brace {raw : Str} (h : lbr ∉ raw) : _extract_json_payload raw = none := by
  unfold _extract_json_payload
  rcases hr : raw.isEmpty with _ | _
  · rw [if_neg (by simp [hr])]
    have hm : lbr ∉ defence (pystrip raw) := fun hmem => h (mem_pystrip (mem_defence hmem))
    simp only [startsWith_lbr_false hm, Bool.false_and, Bool.false_eq_true, if_false,
      strFind_single_none hm]
  · rw [if_pos (by simp [hr])]

theorem extract_fenced {lang s : Str} (h1 : startsWithS s [lbr] = true)
    (h2 : endsWithS s [rbr] = true) (h3 : containsSub s [bq, bq, bq] = false)
    (h4 : '\n' ∉ lang) :
    _extract_json_payload
      ((bq :: bq :: bq :: lang) ++ '\n' :: (s ++ '\n' :: [bq, bq, bq])) = some s := by
  obtain ⟨mid, hs⟩ := brace_decomp h1 h2
  have hpre : ('\n' : Char) ∉ (bq :: bq :: bq :: lang) := by
    simp only [List.mem_cons, not_or]
    exact ⟨by decide, by decide, by decide, h4⟩
  have hfind : strFind (lit "\n")
      ((bq :: bq :: bq :: lang) ++ '\n' :: (s ++ '\n' :: [bq, bq, bq])) =
      some (bq :: bq :: bq :: lang).length := strFind_nl _ hpre
  have hdrop : List.drop ((bq :: bq :: bq :: lang).length + 1)
      ((bq :: bq :: bq :: lang) ++ '\n' :: (s ++ '\n' :: [bq, bq, bq])) =
      s ++ '\n' :: [bq, bq, bq] :=
    (@List.drop_append _ (bq :: bq :: bq :: lang) ('\n' :: (s ++ '\n' :: [bq, bq, bq])) 1).trans
      (by rfl)
  have hrfind : strRFind [bq, bq, bq] (s ++ '\n' :: [bq, bq, bq]) = some (s.length + 1) :=
    strRFind_fence h3
  have htake : List.take (s.length + 1) (s ++ '\n' :: [bq, bq, bq]) = s ++ ['\n'] :=
    (@List.take_append _ s ('\n' :: [bq, bq, bq]) 1).trans (by rfl)
  have hstrip2 : pystrip (s ++ ['\n']) = s := by
    rw [hs]
    rw [show (lbr :: (mid ++ [rbr])) ++ ['\n'] = lbr :: ((mid ++ [rbr]) ++ ['\n']) from rfl]
    rw [pystrip, trimLeft_cons _ (by decide)]
    rw [show lbr :: ((mid ++ [rbr]) ++ ['\n']) = (lbr :: (mid ++ [rbr])) ++ ['\n'] from rfl]
    rw [trimRight_append_ws (by decide)]
    rw [show lbr :: (mid ++ [rbr]) = (lbr :: mid) ++ [rbr] from rfl]
    rw [trimRight_append_last (by decide)]
  have hW : pystrip ((bq :: bq :: bq :: lang) ++ '\n' :: (s ++ '\n' :: [bq, bq, bq])) =
      (bq :: bq :: bq :: lang) ++ '\n' :: (s ++ '\n' :: [bq, bq, bq]) := by
    have hEq : (bq :: bq :: bq :: lang) ++ '\n' :: (s ++ '\n' :: [bq, bq, bq]) =
        bq :: (((bq :: bq :: lang) ++ '\n' :: (s ++ ['\n', bq, bq])) ++ [bq]) := by
      simp [List.append_assoc]
    rw [hEq, pystrip_closed (by decide) (by decide), ← hEq]
  have hdef : defence ((bq :: bq :: bq :: lang) ++ '\n' :: (s ++ '\n' :: [bq, bq, bq])) = s := by
    unfold defence
    rw [if_pos (by simp [startsWithS, List.isPrefixOf])]
    simp only [hfind, hdrop, hrfind, htake, hstrip2]
  unfold _extract_json_payload
  rw [if_neg (by simp)]
  rw [hW, hdef]
  rw [if_pos (by rw [h1, h2]; rfl)]

/-- C7 counterexample: for the input `{} {}` the remaining text is not
exactly one brace-delimited JSON object (its depth scan closes after the
first `{}`), yet the locator returns the whole text directly instead of the
first balanced span — the fast path checks only the first and last
characters. -/
theorem c7_counterexample :
    _extract_json_payload (lit "\x7b\x7d \x7b\x7d") = some (lit "\x7b\x7d \x7b\x7d") ∧
    exactlyOneBraceObject (lit "\x7b\x7d \x7b\x7d") = false ∧
    braceScan (lit "\x7b\x7d \x7b\x7d") 0 [] = some (lit "\x7b\x7d") := by
  refine ⟨by decide, by decide, by decide⟩

/-- C7 (amended): the locator strips whitespace and code fences, returns
the stripped text directly whenever it starts with an opening brace and
ends with a closing brace (even when that text is not a single balanced
object), otherwise returns the first balanced span found by depth-tracking
from the first opening brace of the remaining text, and returns `None`
when the input has no opening brace at all; consequently a brace-delimited
object wrapped in a triple-backtick fence locates identically to the same
object unwrapped. -/
theorem c7_payload_locator :
    (∀ lang s : Str, startsWithS s [lbr] = true → endsWithS s [rbr] = true →
      containsSub s [bq, bq, bq] = false → ('\n' ∉ lang) →
      _extract_json_payload
        ((bq :: bq :: bq :: lang) ++ '\n' :: (s ++ '\n' :: [bq, bq, bq])) =
        _extract_json_payload s ∧
      _extract_json_payload s = some s) ∧
    (∀ raw : Str, ¬ raw = [] → startsWithS (pystrip raw) [lbr] = true →
      endsWithS (pystrip raw) [rbr] = true →
      _extract_json_payload raw = some (pystrip raw)) ∧
    (∀ raw : Str, ¬ raw = [] → pystrip raw = raw →
      startsWithS raw [bq, bq, bq] = false →
      (startsWithS raw [lbr] && endsWithS raw [rbr]) = false →
      _extract_json_payload raw =
        (match strFind [lbr] raw with
         | none => none
         | some start => braceScan (raw.drop start) 0 [])) ∧
    (∀ raw : Str, lbr ∉ raw → _extract_json_payload raw = none) := by
  refine ⟨?_, ?_, ?_, ?_⟩
  · intro lang s h1 h2 h3 h4
    have h0 : ¬ s = [] := by
      intro he
      rw [he] at h1
      exact absurd h1 (by decide)
    obtain ⟨mid, hm⟩ := brace_decomp h1 h2
    have hps : pystrip s = s := by
      rw [hm]
      exact pystrip_closed (by decide) (by decide)
    have hx := extract_direct h0 (by rw [hps]; exact h1) (by rw [hps]; exact h2)
    rw [hps] at hx
    exact ⟨(extract_fenced h1 h2 h3 h4).trans hx.symm, hx⟩
  · intro raw h0 h1 h2
    exact extract_direct h0 h1 h2
  · intro raw h0 hstrip hfence hfast
    exact extract_fallback h0 hstrip hfence hfast
  · intro raw h
    exact extract_no_brace h

/-- Witness for C7 (amended): the object `{"a":1}` fenced as a `json` code
block locates identically to the bare object, a whitespace-padded object is
returned stripped by the fast path, an object embedded in surrounding prose
is recovered by the depth scan, and a braceless string locates to nothing. -/
theorem c7_payload_locator_witness :
    _extract_json_payload
      ((bq :: bq :: bq :: lit "json") ++ '\n' ::
        (lit "\x7b\"a\":1\x7d" ++ '\n' :: [bq, bq, bq])) =
      _extract_json_payload (lit "\x7b\"a\":1\x7d") ∧
    _extract_json_payload (lit "  \x7b\"a\":1\x7d  ") = some (lit "\x7b\"a\":1\x7d") ∧
    _extract_json_payload (lit "pre \x7b\"a\":1\x7d post") = some (lit "\x7b\"a\":1\x7d") ∧
    _extract_json_payload (lit "no object here") = none :=
  ⟨(c7_payload_locator.1 (lit "json") (lit "\x7b\"a\":1\x7d")
      (by decide) (by decide) (by decide) (by decide)).1,
   (c7_payload_locator.2.1 (lit "  \x7b\"a\":1\x7d  ")
      (by decide) (by decide) (by decide)).trans (by decide),
   (c7_payload_locator.2.2.1 (lit "pre \x7b\"a\":1\x7d post")
      (by decide) (by decide) (by decide) (by decide)).trans (by decide),
   c7_payload_locator.2.2.2 (lit "no object here") (by decide)⟩
